import Mathlib

/-!
Shallow embedding of `HARBORBAY_V1/generar_lisp_HARBORBAY.py`.

The script reads a CSV of tower/level equipment rows, merges them into a
per-tower structure (`cargar_datos_csv`), emits an AutoLISP drawing script
(`generar_lisp`) and a bill-of-materials text report (`generar_bom`).

Modelling conventions:
* Python dicts become insertion-ordered association lists with unique keys;
  `lookupA`/`setA`/`updA` mirror `d[k]`, `d[k] = v` and the
  `defaultdict` get-or-create-then-modify access pattern.
* Python numbers used as drawing coordinates become `Rat` (the script divides
  by 2); counts and colors are `Int`.
* `int(value)` on a string becomes `pyInt?` (strip ASCII whitespace, optional
  sign, decimal digits); Python's underscore digit separators and non-ASCII
  digits are not modelled, no claim depends on them.
* A level's value dict holds both merged integer quantities and overwritten
  `*_modelo` / `*_nombre` strings, so its values are a sum type `PyVal`.
* The wall-clock timestamp interpolated into the BOM header is an explicit
  argument.
-/

namespace HarborBay

/-- A CSV row as produced by `csv.DictReader`: an ordered map from column
name to string value. -/
abbrev Row := List (String × String)

/-- A value stored in a level's dict: merged integer quantities or
overwritten model/name strings. -/
inductive PyVal where
  | vint : Int → PyVal
  | vstr : String → PyVal
deriving DecidableEq, Repr

/-- A level's value dict (quantities and model/name strings). -/
abbrev Nivel := List (String × PyVal)

/-- One tower's merged record (the per-`torre_id` value built by
`cargar_datos_csv`; the unused `modelos_sw` field of the source is omitted,
it is initialized and never read). -/
structure TorreRec where
  nombre : String
  niveles : List (Int × Nivel)
  switches : List (String × String)
deriving DecidableEq, Repr

/-- The `torres` accumulator: tower id to record, insertion ordered. -/
abbrev Torres := List (Int × TorreRec)

/-- Fresh tower record created by the `defaultdict` factory. -/
def emptyTorre : TorreRec := ⟨"", [], []⟩

/-- Dict read `d[k]` / `d.get(k)`. -/
def lookupA {α β : Type} [DecidableEq α] : List (α × β) → α → Option β
  | [], _ => none
  | (k, v) :: tl, q => if k = q then some v else lookupA tl q

/-- Dict write `d[k] = v` (overwrite in place, else append). -/
def setA {α β : Type} [DecidableEq α] : List (α × β) → α → β → List (α × β)
  | [], q, w => [(q, w)]
  | (k, v) :: tl, q, w => if k = q then (q, w) :: tl else (k, v) :: setA tl q w

/-- `defaultdict` read-modify-write: `d[k] = f(d[k])` where a missing key is
first materialized with the factory default. -/
def updA {α β : Type} [DecidableEq α] : List (α × β) → α → β → (β → β) → List (α × β)
  | [], q, dflt, f => [(q, f dflt)]
  | (k, v) :: tl, q, dflt, f =>
      if k = q then (q, f v) :: tl else (k, v) :: updA tl q dflt f

/-- `defaultdict` bare read `d[k]`: materialize the default if absent
(the side effect of a plain access). -/
def ensureA {α β : Type} [DecidableEq α] (d : List (α × β)) (q : α) (dflt : β) :
    List (α × β) :=
  if (lookupA d q).isSome then d else d ++ [(q, dflt)]

/-- Leading-pattern test on character lists (`str.startswith`). -/
def leadsWith : List Char → List Char → Bool
  | [], _ => true
  | _ :: _, [] => false
  | a :: as, b :: bs => a == b && leadsWith as bs

/-- Contiguous-substring test on character lists. -/
def hasSub (p : List Char) : List Char → Bool
  | [] => leadsWith p []
  | c :: tl => leadsWith p (c :: tl) || hasSub p tl

/-- Python `sub in s` on strings (contiguous substring). -/
def pyIn (sub s : String) : Bool := hasSub sub.data s.data

/-- Python `s.startswith(p)`. -/
def pyStarts (p s : String) : Bool := leadsWith p.data s.data

/-- ASCII whitespace as stripped by Python `int(...)`. -/
def isWs (c : Char) : Bool :=
  c = ' ' || c = '\t' || c = '\n' || c = '\x0d' || c = '\x0b' || c = '\x0c'

/-- Decimal digit test. -/
def isDigitCh (c : Char) : Bool := '0' ≤ c && c ≤ '9'

/-- Accumulate a digit list into a natural number. -/
def digitsVal : List Char → Nat → Nat
  | [], acc => acc
  | c :: tl, acc => digitsVal tl (acc * 10 + (c.toNat - '0'.toNat))

/-- Python `int(s)` on a string: strip whitespace, optional sign, then a
nonempty run of decimal digits; `none` models the `ValueError` branch. -/
def pyInt? (s : String) : Option Int :=
  let cs := ((s.data.dropWhile isWs).reverse.dropWhile isWs).reverse
  match cs with
  | [] => none
  | c :: tl =>
    if c = '-' then
      if tl ≠ [] ∧ tl.all isDigitCh then some (-(digitsVal tl 0 : Int)) else none
    else if c = '+' then
      if tl ≠ [] ∧ tl.all isDigitCh then some ((digitsVal tl 0 : Int)) else none
    else
      if (c :: tl).all isDigitCh then some ((digitsVal (c :: tl) 0 : Int)) else none

/-- Key test of the quantity-merge branch:
`'Qty' in key or 'switch_' in key and '_modelo' not in key`. -/
def esClaveCantidad (k : String) : Bool :=
  pyIn "Qty" k || (pyIn "switch_" k && !pyIn "_modelo" k)

/-- Key test of the overwrite branch: `'_modelo' in key or '_nombre' in key`. -/
def esClaveTexto (k : String) : Bool :=
  pyIn "_modelo" k || pyIn "_nombre" k

/-- Stable insertion of an element into a sorted list: `a` goes in front
of the first element `b` with `le a b`, so equal elements keep their input
order (Python's `sorted` is stable). -/
def insertLe {α : Type} (le : α → α → Bool) (a : α) : List α → List α
  | [] => [a]
  | b :: bs => if le a b then a :: b :: bs else b :: insertLe le a bs

/-- Stable insertion sort, modelling Python `sorted` with a boolean
less-or-equal comparison (structural recursion, so it evaluates in the
kernel). -/
def sortLe {α : Type} (le : α → α → Bool) (l : List α) : List α :=
  l.foldr (insertLe le) []

/-- `torres[t]['nombre'] = nm` (creates the tower if absent). -/
def setNombre (torres : Torres) (t : Int) (nm : String) : Torres :=
  updA torres t emptyTorre (fun tr => { tr with nombre := nm })

/-- `torres[t]['niveles'][n][k] += int(s)`.  The chained `defaultdict`
accesses create the tower, the level, and the `k ↦ 0` cell before `int(s)`
is evaluated; a `ValueError` from `int` is swallowed leaving the created
cell, and a `TypeError` from adding to a previously stored string is also
swallowed leaving the cell unchanged. -/
def mergeCantidad (torres : Torres) (t n : Int) (k s : String) : Torres :=
  updA torres t emptyTorre (fun tr =>
    { tr with niveles := updA tr.niveles n [] (fun nd =>
        match pyInt? s with
        | some v =>
            updA nd k (PyVal.vint 0) (fun old =>
              match old with
              | PyVal.vint m => PyVal.vint (m + v)
              | PyVal.vstr w => PyVal.vstr w)
        | none => ensureA nd k (PyVal.vint 0)) })

/-- `torres[t]['niveles'][n][k] = s` (the model/name overwrite branch). -/
def setTexto (torres : Torres) (t n : Int) (k s : String) : Torres :=
  updA torres t emptyTorre (fun tr =>
    { tr with niveles := updA tr.niveles n [] (fun nd => setA nd k (PyVal.vstr s)) })

/-- One iteration of the quantity/name merge loop over `row.items()`. -/
def mergePair (t n : Int) (torres : Torres) (kv : String × String) : Torres :=
  if kv.2 = "" then torres
  else if esClaveCantidad kv.1 then mergeCantidad torres t n kv.1 kv.2
  else if esClaveTexto kv.1 then setTexto torres t n kv.1 kv.2
  else torres

/-- Python `s.upper()` (ASCII; the switch-role keys are ASCII). -/
def upperStr (s : String) : String := String.mk (s.data.map Char.toUpper)

/-- Python `s.split(sep)` for a one-character separator, on char lists
(structural recursion, unlike `String.splitOn`, so it evaluates in the
kernel). -/
def splitChar (sep : Char) : List Char → List (List Char)
  | [] => [[]]
  | c :: tl =>
      match splitChar sep tl with
      | [] => if c = sep then [[], []] else [[c]]
      | h :: t => if c = sep then [] :: h :: t else (c :: h) :: t

/-- Python `sw_key.split('_')`. -/
def pySplitU (s : String) : List String := (splitChar '_' s.data).map String.mk

/-- Canonical switch-role name: `"SW-" + sw_key.split('_')[1].upper()`. -/
def swRoleName (k : String) : String :=
  "SW-" ++ upperStr (((pySplitU k).get? 1).getD "")

/-- One iteration of the switch-consolidation loop `for sw_key in row`:
record the role (with its model) only when the indicator key starts with
`switch_`, does not contain `_modelo`, its value (empty coerced to `"0"`)
differs from `"0"`, and the paired `_modelo` field is present and
non-empty. -/
def switchPair (t : Int) (row : Row) (torres : Torres) (kv : String × String) : Torres :=
  let k := kv.1
  let v := (lookupA row k).getD ""
  if pyStarts "switch_" k && !pyIn "_modelo" k
      && (if v = "" then "0" else v) ≠ "0" then
    match lookupA row (k ++ "_modelo") with
    | some m =>
        if m ≠ "" then
          updA torres t emptyTorre (fun tr =>
            { tr with switches := setA tr.switches (swRoleName k) m })
        else torres
    | none => torres
  else torres

/-- Process one CSV row: parse the tower and level ids, read the
`torre_nombre` column (a missing column or unparseable id raises
`KeyError`/`ValueError` and the row is skipped with no mutation), then run
the merge loop and the switch-consolidation loop. -/
def procesarFila (torres : Torres) (row : Row) : Torres :=
  match lookupA row "TORRE", lookupA row "NIVEL", lookupA row "torre_nombre" with
  | some sT, some sN, some nm =>
    match pyInt? sT, pyInt? sN with
    | some t, some n =>
        let st1 := if nm ≠ "" then setNombre torres t nm else torres
        let st2 := row.foldl (mergePair t n) st1
        row.foldl (switchPair t row) st2
    | _, _ => torres
  | _, _, _ => torres

/-- `cargar_datos_csv`: fold all rows, then sort the tower map by tower id
(`sorted(torres.items())`); the id keys are kept alongside the records
(in the source the ids are dropped when building `torres_list`). -/
def cargarDatosCsv (rows : List Row) : Torres :=
  sortLe (fun a b => decide (a.1 ≤ b.1)) (rows.foldl procesarFila [])

/-- The tower list actually returned by `cargar_datos_csv` (ids dropped). -/
def torresList (rows : List Row) : List TorreRec :=
  (cargarDatosCsv rows).map (fun p => p.2)

/-! ### Configuration (`config.json`, consumed read-only) -/

/-- One `cfg['DISPOSITIVOS']` entry: icon kind and display label
(indexed directly in the source, hence total fields). -/
structure DispConf where
  icono : String
  label : String
deriving DecidableEq, Repr

/-- One `cfg['SWITCH_CONFIG']` entry; the source reads it with `.get` and
defaults, hence optional fields. -/
structure SwConf where
  capa : Option String
  color : Option Int
  label : Option String
deriving DecidableEq, Repr

/-- The configuration object.  Coordinates and spacings are rationals
(Python floats; the script halves widths and heights), colors are ints. -/
structure Cfg where
  CAPAS : List (String × Int)
  DISPOSITIVOS : List (String × DispConf)
  MAPEO_SWITCH : List (String × String)
  SWITCH_CONFIG : List (String × SwConf)
  X_INICIAL : Rat
  Y_INICIAL : Rat
  LONGITUD_PISO : Rat
  SEPARACION_ENTRE_TORRES : Rat
  ESPACIO_ENTRE_NIVELES : Rat
  SWITCH_VERTICAL_SPACING : Rat
  SWITCH_ANCHO : Rat
  SWITCH_ALTO : Rat
  SWITCH_TEXTO_ALTURA : Rat
  TORRE_LABEL_OFFSET_Y : Rat
  TORRE_LABEL_ALTURA : Rat
  CABLE_TRUNK_OFFSET_X : Rat
  CABLE_TRUNK_OFFSET_Y : Rat
  DISPOSITIVO_Y_OFFSET : Rat
  DISPOSITIVO_ESPACIADO_X : Rat
deriving DecidableEq, Repr

/-- `cfg['CAPAS'][nombre]` (a missing layer would raise `KeyError` in the
source; `0` here stands for that unreachable branch). -/
def capaColor (cfg : Cfg) (nombre : String) : Int :=
  (lookupA cfg.CAPAS nombre).getD 0

/-! ### Abstract drawing operations (the LISP output)

Every line written by `generar_lisp` goes through `lisp_escribir`; the
shape/text helpers are modelled as abstract operations per spec §4.4, raw
comment/`princ`/setup lines are kept verbatim as `Op.raw`.  A
`lisp_dibujar_texto` call selects a layer and writes one `-TEXT` command;
it is modelled as a single `texto` operation carrying layer, color and
justification. -/

/-- A point. -/
abbrev Pt := Rat × Rat

/-- One abstract drawing operation. -/
inductive Op where
  | raw : String → Op
  | crearCapa : String → Int → Op
  | selCapa : String → Int → Op
  | linea : Pt → Pt → Op
  | circulo : Pt → Rat → Op
  | polilinea : List Pt → Bool → Op
  | hatch : Op
  | texto : Pt → Rat → String → String → Int → String → Op
  | arcoEliptico : Pt → Pt → Pt → Rat → Rat → Op
deriving DecidableEq, Repr

/-- `lisp_dibujar_rectangulo`: a closed polyline through the four corners. -/
def dibujarRectangulo (p1 p2 : Pt) : List Op :=
  [Op.polilinea [(p1.1, p1.2), (p2.1, p1.2), (p2.1, p2.2), (p1.1, p2.2)] true]

/-- `lisp_dibujar_texto` with its default layer, color and justification. -/
def textoDef (p : Pt) (altura : Rat) (txt : String) : Op :=
  Op.texto p altura txt "Textos" 7 "C"

/-- `dibujar_icono_ap`: triangle plus three concentric circles. -/
def iconoAp (cfg : Cfg) (x y : Rat) : List Op :=
  [Op.selCapa "APs" (capaColor cfg "APs"),
   Op.polilinea [(x - 10, y), (x + 10, y), (x, y + 25), (x - 10, y)] false,
   Op.circulo (x, y + 25) 10,
   Op.circulo (x, y + 25) (85/4),
   Op.circulo (x, y + 25) 30]

/-- `dibujar_icono_telefono`: body rectangle plus earpiece circle. -/
def iconoTelefono (cfg : Cfg) (x y : Rat) : List Op :=
  Op.selCapa "Telefonos" (capaColor cfg "Telefonos") ::
    dibujarRectangulo (x - 10, y) (x + 10, y + 30) ++
    [Op.circulo (x, y + 30 + 5 + 2) 5]

/-- `dibujar_icono_tv`: screen rectangle plus stand triangle. -/
def iconoTv (cfg : Cfg) (x y : Rat) : List Op :=
  Op.selCapa "TVs" (capaColor cfg "TVs") ::
    dibujarRectangulo (x - 20, y) (x + 20, y + 25) ++
    [Op.polilinea [(x - 10, y), (x + 10, y), (x, y - 10), (x - 10, y)] false]

/-- `dibujar_icono_camara`: box plus lens circle. -/
def iconoCamara (cfg : Cfg) (x y : Rat) : List Op :=
  Op.selCapa "Camaras" (capaColor cfg "Camaras") ::
    dibujarRectangulo (x - 10, y) (x + 10, y + 15) ++
    [Op.circulo (x, y + 15/2) 3]

/-- `dibujar_icono_dato`: filled closed triangle. -/
def iconoDato (cfg : Cfg) (x y : Rat) : List Op :=
  [Op.selCapa "Datos" (capaColor cfg "Datos"),
   Op.polilinea [(x - 10, y), (x + 10, y), (x, y + 20)] true,
   Op.hatch]

/-- The `globals()["dibujar_icono_" + icono]` dispatch; an unknown icon name
raises `KeyError` in the source (modelled as no operations). -/
def iconoOps (cfg : Cfg) (icono : String) (x y : Rat) : List Op :=
  if icono = "ap" then iconoAp cfg x y
  else if icono = "telefono" then iconoTelefono cfg x y
  else if icono = "tv" then iconoTv cfg x y
  else if icono = "camara" then iconoCamara cfg x y
  else if icono = "dato" then iconoDato cfg x y
  else []

/-- `dibujar_switch`: rectangle on the `UPS` or `Switches` layer plus a
centered label `nombre (modelo)` (model omitted when empty). -/
def dibujarSwitch (cfg : Cfg) (x y : Rat) (nombre modelo : String) : List Op :=
  let capa := if nombre = "SW-UPS" then "UPS" else "Switches"
  let etiqueta := if modelo ≠ "" then nombre ++ " (" ++ modelo ++ ")" else nombre
  Op.selCapa capa (capaColor cfg capa) ::
    dibujarRectangulo (x, y) (x + cfg.SWITCH_ANCHO, y + cfg.SWITCH_ALTO) ++
    [textoDef (x + cfg.SWITCH_ANCHO/2, y + cfg.SWITCH_ALTO/2) cfg.SWITCH_TEXTO_ALTURA etiqueta]

/-! ### Layout -/

/-- A tower after `generar_lisp` assigns `torre['id'] = i` and
`torre['x'] = x_torre_actual` (lines 283–287). -/
structure TorreL where
  id : Nat
  x : Rat
  datos : TorreRec
deriving DecidableEq, Repr

/-- The id/x assignment loop, threading the running x offset. -/
def asignarTorresAux (cfg : Cfg) : Nat → Rat → List TorreRec → List TorreL
  | _, _, [] => []
  | i, x, t :: ts =>
      ⟨i, x, t⟩ :: asignarTorresAux cfg (i + 1)
        (x + cfg.LONGITUD_PISO + cfg.SEPARACION_ENTRE_TORRES) ts

/-- Tower id and horizontal offset assignment (ids become list positions,
x starts at `X_INICIAL` and advances by floor length plus gap). -/
def asignarTorres (cfg : Cfg) (ts : List TorreRec) : List TorreL :=
  asignarTorresAux cfg 0 cfg.X_INICIAL ts

/-- `sorted(list(set(n_id for t in torres for n_id in t['niveles'])))`. -/
def nivelesOrdenados (ts : List TorreRec) : List Int :=
  sortLe (fun a b => decide (a ≤ b))
    ((ts.flatMap (fun t => t.niveles.map (fun p => p.1))).dedup)

/-- The cumulative vertical-offset loop over the sorted level ids. -/
def alturasAux (gap : Rat) : Rat → List Int → List (Int × Rat)
  | _, [] => []
  | y, n :: ns => (n, y) :: alturasAux gap (y + gap) ns

/-- `alturas_niveles`: each observed level id, ascending, mapped to its
vertical offset starting at `Y_INICIAL` and stepping by
`ESPACIO_ENTRE_NIVELES`. -/
def alturasNiveles (cfg : Cfg) (ts : List TorreRec) : List (Int × Rat) :=
  alturasAux cfg.ESPACIO_ENTRE_NIVELES cfg.Y_INICIAL (nivelesOrdenados ts)

/-- `sorted([sw for sw in torre['switches'].keys() if sw.startswith('SW-')])`. -/
def switchesEnTorre (t : TorreRec) : List String :=
  sortLe (fun a b => decide (a ≤ b))
    ((t.switches.map (fun p => p.1)).filter (fun sw => pyStarts "SW-" sw))

/-- Per-tower switch coordinates for the fiber backbone
(`switch_coords_para_fibra[torre_id]`, line 335): role name to the top-center
of its rectangle. -/
def coordsFibraTorre (cfg : Cfg) (ySotano xBase : Rat) (t : TorreRec) :
    List (String × Pt) :=
  (switchesEnTorre t).enum.map (fun si =>
    (si.2, (xBase + 50 + cfg.SWITCH_ANCHO/2,
            ySotano - cfg.SWITCH_VERTICAL_SPACING * 2 - si.1 * cfg.SWITCH_VERTICAL_SPACING)))

/-- Per-tower switch coordinates for the UTP trunks
(`switch_coords_torre_actual`, line 334): role name to the mid-height left
edge of its rectangle. -/
def coordsSwitchTorre (cfg : Cfg) (ySotano xBase : Rat) (t : TorreRec) :
    List (String × Pt) :=
  (switchesEnTorre t).enum.map (fun si =>
    (si.2, (xBase + 50,
            ySotano - cfg.SWITCH_VERTICAL_SPACING * 2 - si.1 * cfg.SWITCH_VERTICAL_SPACING
              + cfg.SWITCH_ALTO/2)))

/-- `nivel.get(tipo_qty, 0)` on a level dict.  A stored string under a
quantity key would raise `TypeError` at the `> 0` comparison in the source;
it cannot occur because the two merge branches partition the key space, and
is modelled as `0`. -/
def getQty (nd : Nivel) (k : String) : Int :=
  match lookupA nd k with
  | some (PyVal.vint m) => m
  | some (PyVal.vstr _) => 0
  | none => 0

/-! ### Per-tower devices and UTP trunk aggregation (lines 338–369) -/

/-- Mutable state of the device/cabling loop: emitted operations, the
per-switch-role trunk counts (`cables_por_troncal`) and the first-seen
trunk anchor points (`puntos_altos_troncal`). -/
structure TrunkSt where
  ops : List Op
  cables : List (String × Int)
  puntos : List (String × Pt)
deriving DecidableEq, Repr

/-- One device-catalog iteration at one level: draw the icon and count
label when the quantity is positive, then draw the patch cord and
accumulate the trunk count when the device type maps to a switch role
present in the tower.  The running pair is (next device x, state). -/
def pasoDispositivo (cfg : Cfg) (swCoords : List (String × Pt))
    (xCanaleta yNivel : Rat) (nd : Nivel)
    (acc : Rat × TrunkSt) (par : String × DispConf) : Rat × TrunkSt :=
  let xD := acc.1
  let st := acc.2
  let c := getQty nd par.1
  if 0 < c then
    let yD := yNivel + cfg.DISPOSITIVO_Y_OFFSET
    let ops1 := st.ops ++ iconoOps cfg par.2.icono xD yD
      ++ [textoDef (xD, yD - 20) 10 (toString c ++ "x" ++ par.2.label)]
    let st1 : TrunkSt :=
      match lookupA cfg.MAPEO_SWITCH par.1 with
      | some sw =>
          if sw ≠ "" ∧ (lookupA swCoords sw).isSome then
            { ops := ops1 ++ [Op.selCapa "Cables_UTP" (capaColor cfg "Cables_UTP"),
                              Op.linea (xD, yD) (xCanaleta, yD)],
              cables := updA st.cables sw 0 (fun q => q + c),
              puntos := if (lookupA st.puntos sw).isSome then st.puntos
                        else st.puntos ++ [(sw, (xCanaleta, yD))] }
          else { st with ops := ops1 }
      | none => { st with ops := ops1 }
    (xD + cfg.DISPOSITIVO_ESPACIADO_X, st1)
  else (xD, st)

/-- One level iteration: reset the device x slot to `x_base + 50` and run
the device catalog in its fixed order. -/
def pasoNivel (cfg : Cfg) (swCoords : List (String × Pt))
    (xBase xCanaleta : Rat) (alturas : List (Int × Rat))
    (st : TrunkSt) (par : Int × Nivel) : TrunkSt :=
  let yNivel := (lookupA alturas par.1).getD 0
  (cfg.DISPOSITIVOS.foldl (pasoDispositivo cfg swCoords xCanaleta yNivel par.2)
    (xBase + 50, st)).2

/-- `sorted(torre['niveles'].items(), reverse=True)`. -/
def nivelesDescendentes (t : TorreRec) : List (Int × Nivel) :=
  sortLe (fun a b => decide (b.1 ≤ a.1)) t.niveles

/-- The whole device/cabling loop of one tower (initial state empty). -/
def trunkFold (cfg : Cfg) (swCoords : List (String × Pt))
    (xBase xCanaleta : Rat) (alturas : List (Int × Rat)) (t : TorreRec) : TrunkSt :=
  (nivelesDescendentes t).foldl (pasoNivel cfg swCoords xBase xCanaleta alturas)
    ⟨[], [], []⟩

/-- The consolidated trunk drawing loop (lines 364–369): vertical trunk,
patch cord into the switch, and the aggregate `NxCAT6A` label. -/
def opsTroncales (cfg : Cfg) (swCoords : List (String × Pt)) (xCanaleta : Rat)
    (st : TrunkSt) : List Op :=
  st.puntos.flatMap (fun p =>
    let pSup := p.2
    let dest := (lookupA swCoords p.1).getD (0, 0)
    let pInf : Pt := (xCanaleta, dest.2)
    [Op.linea pSup pInf,
     Op.linea pInf (dest.1 + cfg.SWITCH_ANCHO, dest.2),
     Op.texto (xCanaleta + 5, (pSup.2 + pInf.2)/2) 8
       (toString ((lookupA st.cables p.1).getD 0) ++ "xCAT6A") "Textos" 7 "ML"])

/-- The switch-rack drawing loop of one tower (lines 329–335). -/
def opsSwitchesTorre (cfg : Cfg) (ySotano xBase : Rat) (t : TorreRec) : List Op :=
  (switchesEnTorre t).enum.flatMap (fun isw =>
    dibujarSwitch cfg (xBase + 50)
      (ySotano - cfg.SWITCH_VERTICAL_SPACING * 2 - (isw.1 : Rat) * cfg.SWITCH_VERTICAL_SPACING)
      isw.2 ((lookupA t.switches isw.2).getD ""))

/-- All operations of one tower's section of the drawing (lines 314–371).
`minNivelY` is `alturas_niveles[min(alturas_niveles.keys())]`. -/
def opsTorre (cfg : Cfg) (alturas : List (Int × Rat)) (minNivelY : Rat)
    (t : TorreL) : List Op :=
  let xBase := t.x
  let ySotano := (lookupA alturas 0).getD cfg.Y_INICIAL
  let swCoords := coordsSwitchTorre cfg ySotano xBase t.datos
  let xCanaleta := t.x + cfg.LONGITUD_PISO + cfg.CABLE_TRUNK_OFFSET_X
  let st := trunkFold cfg swCoords xBase xCanaleta alturas t.datos
  [Op.raw ("\n; === DIBUJAR TORRE: " ++ t.datos.nombre ++ " ==="),
   Op.raw ("(princ \"\\n>> Dibujando Torre: " ++ t.datos.nombre ++ "...\")"),
   textoDef (xBase + cfg.LONGITUD_PISO/2, minNivelY - cfg.TORRE_LABEL_OFFSET_Y)
     cfg.TORRE_LABEL_ALTURA t.datos.nombre,
   Op.raw "(princ \"\\n   - Dibujando switches...\")"] ++
  opsSwitchesTorre cfg ySotano xBase t.datos ++
  [Op.raw "(princ \"DONE.\")",
   Op.raw "(princ \"\\n   - Dibujando dispositivos y cableado UTP...\")"] ++
  st.ops ++ opsTroncales cfg swCoords xCanaleta st ++
  [Op.raw "(princ \"DONE.\")"]

/-! ### Level guide lines (lines 300–308) -/

/-- `next((t['niveles'][nivel_id]['nivel_nombre'] for t in torres if
nivel_id in t['niveles']), "NIVEL {nivel_id}")`.  A first-matching tower
whose level lacks the `nivel_nombre` key raises `KeyError` in the source;
that branch is modelled as the empty string. -/
def nivelNombreDe (ts : List TorreRec) (n : Int) : String :=
  match ts.find? (fun t => (lookupA t.niveles n).isSome) with
  | some t =>
      match lookupA ((lookupA t.niveles n).getD []) "nivel_nombre" with
      | some (PyVal.vstr s) => s
      | some (PyVal.vint _) => ""
      | none => ""
  | none => "NIVEL " ++ toString n

/-- Level guide lines and their right-justified labels. -/
def opsNiveles (cfg : Cfg) (ts : List TorreRec) (lts : List TorreL) : List Op :=
  (alturasNiveles cfg ts).flatMap (fun p =>
    let xFin := ((lts.getLast?.map (fun t => t.x)).getD 0) + cfg.LONGITUD_PISO + 100
    [Op.selCapa "Niveles" (capaColor cfg "Niveles"),
     Op.linea (cfg.X_INICIAL - 100, p.2) (xFin, p.2),
     Op.texto (cfg.X_INICIAL - 100 - 10, p.2) 15 (nivelNombreDe ts p.1) "Textos" 7 "MR"])

/-! ### Inter-tower fiber backbone (lines 373–402) -/

/-- `switch_coords_para_fibra`: tower id to its fiber attachment points. -/
def coordsFibraDe (cfg : Cfg) (alturas : List (Int × Rat)) (lts : List TorreL) :
    List (Nat × List (String × Pt)) :=
  let ySotano := (lookupA alturas 0).getD cfg.Y_INICIAL
  lts.map (fun t => (t.id, coordsFibraTorre cfg ySotano t.x t.datos))

/-- The MDF's switch attachment points sorted by their y coordinate
(`sorted(mdf_switch_coords.items(), key=lambda item: item[1][1])`). -/
def rolesMdfOrdenados (coordsF : List (Nat × List (String × Pt))) :
    List (String × Pt) :=
  sortLe (fun a b => decide (a.2.2 ≤ b.2.2)) ((lookupA coordsF 0).getD [])

/-- `[t for t in torres if t['id'] != 0 and sw_tipo in
switch_coords_para_fibra[t['id']]]`. -/
def torresConectadas (lts : List TorreL)
    (coordsF : List (Nat × List (String × Pt))) (swTipo : String) : List TorreL :=
  lts.filter (fun t =>
    t.id ≠ 0 && (lookupA ((lookupA coordsF t.id).getD []) swTipo).isSome)

/-- Backbone operations for one switch role at the current channel height. -/
def opsFibraRol (cfg : Cfg) (lts : List TorreL)
    (coordsF : List (Nat × List (String × Pt))) (yCan : Rat)
    (par : String × Pt) : List Op :=
  let swConf := (lookupA cfg.SWITCH_CONFIG par.1).getD ⟨none, none, none⟩
  let conectadas := torresConectadas lts coordsF par.1
  [Op.selCapa (swConf.capa.getD "Fibra_Data") (swConf.color.getD 1),
   Op.linea par.2 (par.2.1, yCan)] ++
  (match conectadas.getLast? with
   | none => []
   | some tUlt =>
       let ultCoord := (lookupA ((lookupA coordsF tUlt.id).getD []) par.1).getD (0, 0)
       [Op.linea (par.2.1, yCan) (ultCoord.1, yCan),
        Op.texto ((par.2.1 + ultCoord.1)/2, yCan + 5) 8
          (toString conectadas.length ++ "x " ++ swConf.label.getD "FO") "Textos" 7 "C"] ++
       conectadas.flatMap (fun t =>
         let c := (lookupA ((lookupA coordsF t.id).getD []) par.1).getD (0, 0)
         [Op.linea (c.1, yCan) c]))

/-- The backbone loop over the MDF roles, lowering the channel by 30 per
role whether or not any tower connects. -/
def opsFibraAux (cfg : Cfg) (lts : List TorreL)
    (coordsF : List (Nat × List (String × Pt))) :
    Rat → List (String × Pt) → List Op
  | _, [] => []
  | yCan, r :: rs =>
      opsFibraRol cfg lts coordsF yCan r ++ opsFibraAux cfg lts coordsF (yCan - 30) rs

/-- All fiber backbone operations. -/
def opsFibra (cfg : Cfg) (alturas : List (Int × Rat)) (lts : List TorreL) : List Op :=
  let coordsF := coordsFibraDe cfg alturas lts
  opsFibraAux cfg lts coordsF
    (cfg.Y_INICIAL - cfg.TORRE_LABEL_OFFSET_Y - cfg.CABLE_TRUNK_OFFSET_Y)
    (rolesMdfOrdenados coordsF)

/-- The backbone drop segments as (switch role, destination tower id) pairs,
one per `lisp_dibujar_linea(f, p_idf_canaleta, idf_sw_coord)` call. -/
def dropsFibra (cfg : Cfg) (alturas : List (Int × Rat)) (lts : List TorreL) :
    List (String × Nat) :=
  let coordsF := coordsFibraDe cfg alturas lts
  (rolesMdfOrdenados coordsF).flatMap (fun r =>
    (torresConectadas lts coordsF r.1).map (fun t => (r.1, t.id)))

/-! ### The full drawing (`generar_lisp`) -/

/-- AutoCAD initialization lines (lines 265–271). -/
def opsInicio : List Op :=
  [Op.raw "(setq *error* (lambda (msg) (if msg (princ (strcat \"\\nError: \" msg)))))",
   Op.raw "(setvar \"OSMODE\" 0)",
   Op.raw "(command \"_.-PURGE\" \"ALL\" \"*\" \"N\")",
   Op.raw "(command \"_.REGEN\")",
   Op.raw "(command \"VISUALSTYLE\" \"Wireframe\")",
   Op.raw "(command \"_.UNDO\" \"BEGIN\")",
   Op.raw "(princ \"--- INICIO DE DIBUJO AUTOMATIZADO HARBORBAY ---\")"]

/-- Layer creation section (lines 274–278). -/
def opsCapas (cfg : Cfg) : List Op :=
  [Op.raw "\n; === CREAR CAPAS ===",
   Op.raw "(princ \"\\nCreando capas...\")"] ++
  cfg.CAPAS.map (fun p => Op.crearCapa p.1 p.2) ++
  [Op.raw "(princ \"DONE.\")"]

/-- Finalization lines (lines 405–409). -/
def opsFinal : List Op :=
  [Op.raw "\n; === FINALIZAR DIBUJO ===",
   Op.raw "(princ \"\\nFinalizando y haciendo zoom...\")",
   Op.raw "(command \"_.ZOOM\" \"E\")",
   Op.raw "(command \"_.UNDO\" \"END\")",
   Op.raw "(princ \"\\n--- PROCESO DE DIBUJO COMPLETADO ---\")"]

/-- `generar_lisp`: the complete ordered operation sequence.  `min()` over
an empty level set raises `ValueError` in the source; here the tower-label
baseline defaults to 0 in that unreachable-with-towers-and-levels case. -/
def generarLisp (cfg : Cfg) (ts : List TorreRec) : List Op :=
  let lts := asignarTorres cfg ts
  let alturas := alturasNiveles cfg ts
  let minNivelY := ((alturas.head?).map (fun p => p.2)).getD 0
  opsInicio ++ opsCapas cfg ++
  [Op.raw "\n; === INICIO DE DIBUJO DE TORRES Y CABLEADO ===",
   Op.raw "(princ \"\\nDibujando lineas de Nivel...\")"] ++
  opsNiveles cfg ts lts ++
  [Op.raw "(princ \"DONE.\")"] ++
  lts.flatMap (opsTorre cfg alturas minNivelY) ++
  [Op.raw "(princ \"\\nDibujando cables de Fibra y Alimentacion...\")"] ++
  opsFibra cfg alturas lts ++
  [Op.raw "(princ \"DONE.\")"] ++
  opsFinal

/-! ### The BOM report (`generar_bom`) -/

/-- Left-justify to a field width (`f"{s:<w}"`). -/
def padDer (s : String) (w : Nat) : String :=
  s ++ String.mk (List.replicate (w - s.data.length) ' ')

/-- Group a reversed digit list in threes with commas. -/
def agruparRev : List Char → List Char
  | [] => []
  | [a] => [a]
  | [a, b] => [a, b]
  | [a, b, c] => [a, b, c]
  | a :: b :: c :: d :: tl => a :: b :: c :: ',' :: agruparRev (d :: tl)

/-- Python `f"{n:,}"` thousands formatting of an integer. -/
def fmtMiles (n : Int) : String :=
  (if n < 0 then "-" else "") ++
    String.mk ((agruparRev (toString n.natAbs).data.reverse).reverse)

/-- `totales`: per catalog device type, the quantity summed over every
tower and level. -/
def bomTotales (cfg : Cfg) (ts : List TorreRec) : List (String × Int) :=
  ts.foldl (fun acc t =>
    t.niveles.foldl (fun acc2 nv =>
      cfg.DISPOSITIVOS.foldl (fun acc3 d => updA acc3 d.1 0 (fun q => q + getQty nv.2 d.1))
        acc2) acc) []

/-- `switches_totales`: instance count per switch-role name. -/
def switchesTotales (ts : List TorreRec) : List (String × Int) :=
  ts.foldl (fun acc t =>
    t.switches.foldl (fun acc2 sw => updA acc2 sw.1 0 (fun q => q + 1)) acc) []

/-- `modelos_switches`: per role, per non-empty model string, a count. -/
def modelosSwitches (ts : List TorreRec) : List (String × List (String × Int)) :=
  ts.foldl (fun acc t =>
    t.switches.foldl (fun acc2 sw =>
      if sw.2 ≠ "" then updA acc2 sw.1 [] (fun m => updA m sw.2 0 (fun q => q + 1))
      else acc2) acc) []

/-- `total_puntos_red = sum(totales.values())`. -/
def totalPuntosRed (cfg : Cfg) (ts : List TorreRec) : Int :=
  ((bomTotales cfg ts).map (fun p => p.2)).sum

/-- `total_cable_utp = total_puntos_red * 15`. -/
def totalCableUtp (cfg : Cfg) (ts : List TorreRec) : Int :=
  totalPuntosRed cfg ts * 15

/-- `total_fibra = (len(torres) - 1) * len(cfg['SWITCH_CONFIG']) * 50`. -/
def totalFibra (cfg : Cfg) (ts : List TorreRec) : Int :=
  ((ts.length : Int) - 1) * (cfg.SWITCH_CONFIG.length : Int) * 50

/-- One device line of the BOM device section. -/
def lineaDispositivo (cfg : Cfg) (ts : List TorreRec) (d : String × DispConf) : String :=
  "- " ++ padDer d.2.label 10 ++ ": " ++
    toString ((lookupA (bomTotales cfg ts) d.1).getD 0) ++ " unidades\n"

/-- The switch section lines: roles sorted by name, each with its nested
model breakdown. -/
def lineasSwitch (ts : List TorreRec) : List String :=
  (sortLe (fun a b => decide (a.1 ≤ b.1)) (switchesTotales ts)).flatMap (fun sw =>
    ("- " ++ padDer sw.1 15 ++ ": " ++ toString sw.2 ++ " unidades\n") ::
    (match lookupA (modelosSwitches ts) sw.1 with
     | some ms => ms.map (fun m =>
         "    - Modelo: " ++ m.1 ++ " (" ++ toString m.2 ++ " uds)\n")
     | none => []))

/-- The 60-character separator rule the BOM writes between sections. -/
def sepBom : String :=
  String.mk (List.replicate 60 (Char.ofNat 61)) ++ "\n"

/-- `generar_bom`: the BOM text as the ordered list of `f.write` pieces;
`fecha` is the interpolated `datetime.now()` timestamp. -/
def bomLines (cfg : Cfg) (ts : List TorreRec) (fecha : String) : List String :=
  [sepBom,
   "      LISTADO DE MATERIALES (BOM) - PROYECTO HARBORBAY\n",
   sepBom,
   "Fecha de Generación: " ++ fecha ++ "\n\n",
   "--- RESUMEN DEL PROYECTO ---\n",
   "Total de Torres (MDF+IDF): " ++ toString ts.length ++ "\n",
   "Total de Puntos de Red:    " ++ toString (totalPuntosRed cfg ts) ++ "\n\n",
   "--- TOTAL DE DISPOSITIVOS ---\n"] ++
  cfg.DISPOSITIVOS.map (lineaDispositivo cfg ts) ++
  ["\n", "--- TOTAL DE SWITCHES POR TIPO Y MODELO ---\n"] ++
  lineasSwitch ts ++
  ["\n", "--- ESTIMACIÓN DE CABLEADO ---\n",
   "- Cable UTP CAT6A: ~" ++ fmtMiles (totalCableUtp cfg ts) ++ " metros\n",
   "- Fibra Óptica:    ~" ++ fmtMiles (totalFibra cfg ts) ++ " metros (estimación bruta)\n\n",
   "--- OBSERVACIONES ---\n",
   "- Las cantidades se basan en el archivo \x27torres.csv\x27.\n",
   "- La longitud del cableado es una estimación y requiere verificación en sitio.\n",
   "- Se incluye 1 UPS centralizada en el MDF.\n",
   sepBom]

/-- One whole run: merged layout data, the drawing-operation sequence and
the BOM text.  `fecha` models the only run-dependent input, the wall-clock
timestamp read inside `generar_bom`. -/
def ejecutarPipeline (cfg : Cfg) (rows : List Row) (fecha : String) :
    (List TorreL × List (Int × Rat)) × List Op × List String :=
  let ts := torresList rows
  ((asignarTorres cfg ts, alturasNiveles cfg ts), generarLisp cfg ts, bomLines cfg ts fecha)

/-- The value of one level cell of the merged structure
(`torres[t]['niveles'][n][k]`, as an optional value). -/
def celda (torres : Torres) (t n : Int) (k : String) : Option PyVal :=
  (lookupA torres t).bind (fun tr =>
    (lookupA tr.niveles n).bind (fun nd => lookupA nd k))

/-- The level dict currently stored at `(t0, n0)` (empty when the tower or
level does not exist yet — the `defaultdict` default). -/
def nivelActual (torres : Torres) (t0 n0 : Int) : Nivel :=
  (lookupA ((lookupA torres t0).getD emptyTorre).niveles n0).getD []

/-- Key invariant of the Python dicts: the tower map and every tower's
switch map have duplicate-free keys. -/
def WFTorres (torres : Torres) : Prop :=
  ((torres.map Prod.fst)).Nodup ∧
    ∀ p ∈ torres, ((p.2.switches.map Prod.fst)).Nodup

/-- A row carrying the two ids, the tower name column and one further
data column, in CSV column order. -/
def mkRow (st sn nm sk sv : String) : Row :=
  [("TORRE", st), ("NIVEL", sn), ("torre_nombre", nm), (sk, sv)]

/-- A stored level value is non-negative (string values vacuously so). -/
def valNoNegativo : PyVal → Prop
  | PyVal.vint m => 0 ≤ m
  | PyVal.vstr _ => True

instance : DecidablePred valNoNegativo := fun v =>
  match v with
  | PyVal.vint m => inferInstanceAs (Decidable (0 ≤ m))
  | PyVal.vstr _ => inferInstanceAs (Decidable True)

/-- All quantity cells of one tower record are non-negative. -/
def torreNoNegativa (tr : TorreRec) : Prop :=
  ∀ nv ∈ tr.niveles, ∀ c ∈ nv.2, valNoNegativo c.2

instance : DecidablePred torreNoNegativa := fun tr =>
  inferInstanceAs (Decidable (∀ nv ∈ tr.niveles, ∀ c ∈ nv.2, valNoNegativo c.2))

/-- The claimed invariant: every device-quantity value stored in every
merged level is a non-negative integer. -/
def cantidadesNoNegativas (torres : Torres) : Prop :=
  ∀ p ∈ torres, torreNoNegativa p.2

instance (torres : Torres) : Decidable (cantidadesNoNegativas torres) :=
  inferInstanceAs (Decidable (∀ p ∈ torres, torreNoNegativa p.2))

/-- A configuration with empty tables and zero spacings, for concrete
instantiations. -/
def cfgVacia : Cfg :=
  ⟨[], [], [], [], 0, 0, 0, 0, 0, 0, 0, 0, 0, 0, 0, 0, 0, 0, 0⟩

/-- Two single-tower rows with original tower ids 5 and 2. -/
def filasDosTorres : List Row :=
  [[("TORRE", "5"), ("NIVEL", "1"), ("torre_nombre", "A")],
   [("TORRE", "2"), ("NIVEL", "1"), ("torre_nombre", "B")]]

/-- Per-(level, device-type) contribution to a trunk count: the quantity
when it is positive and the device type maps to the present switch role,
else nothing (the guard structure of lines 347–359). -/
def contribTroncal (cfg : Cfg) (swC : List (String × Pt)) (sw : String)
    (nd : Nivel) (d : String × DispConf) : Int :=
  if 0 < getQty nd d.1 ∧ lookupA cfg.MAPEO_SWITCH d.1 = some sw ∧
      sw ≠ "" ∧ (lookupA swC sw).isSome
  then getQty nd d.1 else 0

/-- A one-device-type configuration mapping `apQty` to `SW-CORE`. -/
def cfgDemo : Cfg :=
  ⟨[("Textos", 7)], [("apQty", ⟨"ap", "AP"⟩)], [("apQty", "SW-CORE")],
   [("SW-CORE", ⟨some "Fibra_Data", some 1, some "FO"⟩)],
   0, 0, 0, 0, 0, 0, 0, 0, 0, 0, 0, 0, 0, 0, 0⟩

/-- One tower, two levels: `apQty = 3` on level 1 and `apQty = -5` on
level 2, with a recorded `SW-CORE` switch. -/
def filasC6 : List Row :=
  [[("TORRE", "1"), ("NIVEL", "1"), ("torre_nombre", "T1"), ("apQty", "3"),
    ("switch_core", "1"), ("switch_core_modelo", "M")],
   [("TORRE", "1"), ("NIVEL", "2"), ("torre_nombre", ""), ("apQty", "-5"),
    ("switch_core", ""), ("switch_core_modelo", "")]]

/-- The spec's end-to-end scenario rows: an MDF row with a core switch and
model, and an IDF row whose `switch_core` indicator is `1` but whose
`switch_core_modelo` column is empty. -/
def filasEscenario : List Row :=
  [[("TORRE", "0"), ("NIVEL", "0"), ("torre_nombre", "MDF"), ("apQty", ""),
    ("switch_core", "1"), ("switch_core_modelo", "X1")],
   [("TORRE", "1"), ("NIVEL", "0"), ("torre_nombre", "IDF1"), ("apQty", "2"),
    ("switch_core", "1"), ("switch_core_modelo", "")]]

/-! ## Insertion-sort lemmas -/

theorem insertLe_perm {α : Type} (le : α → α → Bool) (a : α) (l : List α) :
    (insertLe le a l).Perm (a :: l) := by
  induction l with
  | nil => exact List.Perm.refl _
  | cons b bs ih =>
      unfold insertLe
      by_cases h : le a b = true
      · simp [h]
      · simp only [h, if_false, Bool.false_eq_true]
        exact (List.Perm.cons b ih).trans (List.Perm.swap a b bs)

theorem sortLe_perm {α : Type} (le : α → α → Bool) (l : List α) :
    (sortLe le l).Perm l := by
  induction l with
  | nil => exact List.Perm.refl _
  | cons a tl ih =>
      unfold sortLe
      simp only [List.foldr_cons]
      exact (insertLe_perm le a _).trans (List.Perm.cons a ih)

theorem mem_insertLe {α : Type} (le : α → α → Bool) (a x : α) (l : List α) :
    x ∈ insertLe le a l ↔ x = a ∨ x ∈ l := by
  rw [(insertLe_perm le a l).mem_iff]
  simp

theorem pairwise_insertLe {α : Type} (le : α → α → Bool)
    (htot : ∀ a b, le a b = true ∨ le b a = true)
    (htrans : ∀ a b c, le a b = true → le b c = true → le a c = true)
    (a : α) (l : List α) (hl : l.Pairwise (fun x y => le x y = true)) :
    (insertLe le a l).Pairwise (fun x y => le x y = true) := by
  induction l with
  | nil => simp [insertLe]
  | cons b bs ih =>
      rcases List.pairwise_cons.mp hl with ⟨hb, hbs⟩
      unfold insertLe
      by_cases h : le a b = true
      · rw [if_pos h]
        refine List.pairwise_cons.mpr ⟨?_, hl⟩
        intro x hx
        rcases List.mem_cons.mp hx with h1 | h1
        · subst h1; exact h
        · exact htrans a b x h (hb x h1)
      · have hba : le b a = true := (htot a b).resolve_left h
        rw [if_neg h]
        refine List.pairwise_cons.mpr ⟨?_, ih hbs⟩
        intro x hx
        rcases (mem_insertLe le a x bs).mp hx with h1 | h1
        · subst h1; exact hba
        · exact hb x h1

theorem pairwise_sortLe {α : Type} (le : α → α → Bool)
    (htot : ∀ a b, le a b = true ∨ le b a = true)
    (htrans : ∀ a b c, le a b = true → le b c = true → le a c = true)
    (l : List α) :
    (sortLe le l).Pairwise (fun x y => le x y = true) := by
  induction l with
  | nil => simp [sortLe]
  | cons a tl ih =>
      unfold sortLe
      simp only [List.foldr_cons]
      exact pairwise_insertLe le htot htrans a _ ih

/-! ## Association-list lemmas -/

theorem lookupA_updA_self {α β : Type} [DecidableEq α] (d : List (α × β)) (q : α)
    (dflt : β) (f : β → β) :
    lookupA (updA d q dflt f) q = some (f ((lookupA d q).getD dflt)) := by
  induction d with
  | nil => simp [lookupA, updA]
  | cons p tl ih =>
      obtain ⟨k, v⟩ := p
      by_cases h : k = q
      · subst h; simp [lookupA, updA]
      · simp [lookupA, updA, h, ih]

theorem lookupA_updA_ne {α β : Type} [DecidableEq α] (d : List (α × β)) {q q' : α}
    (dflt : β) (f : β → β) (h : q' ≠ q) :
    lookupA (updA d q dflt f) q' = lookupA d q' := by
  induction d with
  | nil => simp [lookupA, updA, Ne.symm h]
  | cons p tl ih =>
      obtain ⟨k, v⟩ := p
      by_cases hk : k = q
      · subst hk
        simp [lookupA, updA, Ne.symm h]
      · simp only [updA, if_neg hk, lookupA]
        by_cases hk2 : k = q'
        · simp [hk2]
        · simp [hk2, ih]

theorem lookupA_setA_self {α β : Type} [DecidableEq α] (d : List (α × β)) (q : α) (w : β) :
    lookupA (setA d q w) q = some w := by
  induction d with
  | nil => simp [lookupA, setA]
  | cons p tl ih =>
      obtain ⟨k, v⟩ := p
      by_cases h : k = q
      · subst h; simp [lookupA, setA]
      · simp [lookupA, setA, h, ih]

theorem lookupA_setA_ne {α β : Type} [DecidableEq α] (d : List (α × β)) {q q' : α}
    (w : β) (h : q' ≠ q) :
    lookupA (setA d q w) q' = lookupA d q' := by
  induction d with
  | nil => simp [lookupA, setA, Ne.symm h]
  | cons p tl ih =>
      obtain ⟨k, v⟩ := p
      by_cases hk : k = q
      · subst hk
        simp [lookupA, setA, Ne.symm h]
      · simp only [setA, if_neg hk, lookupA]
        by_cases hk2 : k = q'
        · simp [hk2]
        · simp [hk2, ih]

theorem lookupA_append_single {α β : Type} [DecidableEq α] (d : List (α × β))
    (q : α) (dflt : β) (h : lookupA d q = none) :
    lookupA (d ++ [(q, dflt)]) q = some dflt := by
  induction d with
  | nil => simp [lookupA]
  | cons p tl ih =>
      obtain ⟨k, v⟩ := p
      by_cases hk : k = q
      · simp [lookupA, hk] at h
      · simp only [lookupA, if_neg hk] at h
        simp only [List.cons_append, lookupA, if_neg hk]
        exact ih h

theorem lookupA_ensureA_self {α β : Type} [DecidableEq α] (d : List (α × β)) (q : α)
    (dflt : β) :
    lookupA (ensureA d q dflt) q = some ((lookupA d q).getD dflt) := by
  unfold ensureA
  cases h : lookupA d q with
  | none => simp [h, lookupA_append_single d q dflt h]
  | some v => simp [h]

theorem mem_updA {α β : Type} [DecidableEq α] (d : List (α × β)) (q : α) (dflt : β)
    (f : β → β) (p : α × β) (hp : p ∈ updA d q dflt f) :
    p ∈ d ∨ p = (q, f ((lookupA d q).getD dflt)) := by
  induction d with
  | nil =>
      simp [updA, lookupA] at hp
      exact Or.inr hp
  | cons hd tl ih =>
      obtain ⟨k, v⟩ := hd
      by_cases hk : k = q
      · subst hk
        simp only [updA, if_pos rfl] at hp
        rcases List.mem_cons.mp hp with h1 | h1
        · exact Or.inr (by simp [h1, lookupA])
        · exact Or.inl (List.mem_cons_of_mem _ h1)
      · simp only [updA, if_neg hk] at hp
        rcases List.mem_cons.mp hp with h1 | h1
        · exact Or.inl (by simp [h1])
        · rcases ih h1 with h2 | h2
          · exact Or.inl (List.mem_cons_of_mem _ h2)
          · refine Or.inr ?_
            simpa [lookupA, hk] using h2

theorem mem_setA {α β : Type} [DecidableEq α] (d : List (α × β)) (q : α) (w : β)
    (p : α × β) (hp : p ∈ setA d q w) :
    p ∈ d ∨ p = (q, w) := by
  induction d with
  | nil => simp [setA] at hp; exact Or.inr hp
  | cons hd tl ih =>
      obtain ⟨k, v⟩ := hd
      by_cases hk : k = q
      · subst hk
        simp only [setA, if_pos rfl] at hp
        rcases List.mem_cons.mp hp with h1 | h1
        · exact Or.inr h1
        · exact Or.inl (List.mem_cons_of_mem _ h1)
      · simp only [setA, if_neg hk] at hp
        rcases List.mem_cons.mp hp with h1 | h1
        · exact Or.inl (by simp [h1])
        · rcases ih h1 with h2 | h2
          · exact Or.inl (List.mem_cons_of_mem _ h2)
          · exact Or.inr h2

theorem mem_ensureA {α β : Type} [DecidableEq α] (d : List (α × β)) (q : α) (dflt : β)
    (p : α × β) (hp : p ∈ ensureA d q dflt) :
    p ∈ d ∨ p = (q, dflt) := by
  unfold ensureA at hp
  by_cases h : (lookupA d q).isSome
  · simp [h] at hp; exact Or.inl hp
  · simp only [h, if_false, Bool.false_eq_true, List.mem_append, List.mem_singleton] at hp
    rcases hp with h1 | h1
    · exact Or.inl h1
    · exact Or.inr h1

theorem keys_updA {α β : Type} [DecidableEq α] (d : List (α × β)) (q : α) (dflt : β)
    (f : β → β) :
    (updA d q dflt f).map Prod.fst =
      if (lookupA d q).isSome then d.map Prod.fst else d.map Prod.fst ++ [q] := by
  induction d with
  | nil => simp [updA, lookupA]
  | cons p tl ih =>
      obtain ⟨k, v⟩ := p
      by_cases hk : k = q
      · subst hk; simp [updA, lookupA]
      · simp only [updA, if_neg hk, lookupA, List.map_cons]
        rw [ih]
        by_cases h2 : (lookupA tl q).isSome
        · simp [h2, hk]
        · simp [h2, hk]

theorem keys_setA {α β : Type} [DecidableEq α] (d : List (α × β)) (q : α) (w : β) :
    (setA d q w).map Prod.fst =
      if (lookupA d q).isSome then d.map Prod.fst else d.map Prod.fst ++ [q] := by
  induction d with
  | nil => simp [setA, lookupA]
  | cons p tl ih =>
      obtain ⟨k, v⟩ := p
      by_cases hk : k = q
      · subst hk; simp [setA, lookupA]
      · simp only [setA, if_neg hk, lookupA, List.map_cons]
        rw [ih]
        by_cases h2 : (lookupA tl q).isSome
        · simp [h2, hk]
        · simp [h2, hk]

theorem lookupA_eq_none_iff {α β : Type} [DecidableEq α] (d : List (α × β)) (q : α) :
    lookupA d q = none ↔ q ∉ d.map Prod.fst := by
  induction d with
  | nil => simp [lookupA]
  | cons p tl ih =>
      obtain ⟨k, v⟩ := p
      by_cases hk : k = q
      · subst hk; simp [lookupA]
      · simp [lookupA, hk, ih, Ne.symm hk]

theorem nodup_keys_updA {α β : Type} [DecidableEq α] (d : List (α × β)) (q : α)
    (dflt : β) (f : β → β) (h : (d.map Prod.fst).Nodup) :
    ((updA d q dflt f).map Prod.fst).Nodup := by
  rw [keys_updA]
  by_cases h2 : (lookupA d q).isSome
  · simpa [h2]
  · have hq : q ∉ d.map Prod.fst := by
      rw [← lookupA_eq_none_iff]
      cases h3 : lookupA d q
      · rfl
      · simp [h3] at h2
    simp [h2, List.nodup_append, h, hq]

theorem nodup_keys_setA {α β : Type} [DecidableEq α] (d : List (α × β)) (q : α)
    (w : β) (h : (d.map Prod.fst).Nodup) :
    ((setA d q w).map Prod.fst).Nodup := by
  rw [keys_setA]
  by_cases h2 : (lookupA d q).isSome
  · simpa [h2]
  · have hq : q ∉ d.map Prod.fst := by
      rw [← lookupA_eq_none_iff]
      cases h3 : lookupA d q
      · rfl
      · simp [h3] at h2
    simp [h2, List.nodup_append, h, hq]

theorem lookupA_eq_some_of_mem {α β : Type} [DecidableEq α] {d : List (α × β)}
    {q : α} {v : β} (hn : (d.map Prod.fst).Nodup) (hm : (q, v) ∈ d) :
    lookupA d q = some v := by
  induction d with
  | nil => cases hm
  | cons p tl ih =>
      obtain ⟨k, w⟩ := p
      simp only [List.map_cons, List.nodup_cons] at hn
      rcases List.mem_cons.mp hm with h1 | h1
      · obtain ⟨hk, hv⟩ := Prod.mk.injEq .. ▸ h1
        cases h1
        simp [lookupA]
      · have hne : k ≠ q := by
          intro hkq
          subst hkq
          exact hn.1 (List.mem_map.mpr ⟨(k, v), h1, rfl⟩)
        simp [lookupA, hne, ih hn.2 h1]

theorem lookupA_perm {α β : Type} [DecidableEq α] {d d2 : List (α × β)}
    (hn : (d.map Prod.fst).Nodup) (hp : d.Perm d2) (q : α) :
    lookupA d q = lookupA d2 q := by
  have hn2 : (d2.map Prod.fst).Nodup := (hp.map Prod.fst).nodup_iff.mp hn
  cases h : lookupA d q with
  | none =>
      rw [lookupA_eq_none_iff] at h
      have : q ∉ d2.map Prod.fst := fun hmem => h ((hp.map Prod.fst).mem_iff.mpr hmem)
      exact ((lookupA_eq_none_iff d2 q).mpr this).symm
  | some v =>
      have hm : (q, v) ∈ d := by
        clear hp hn2
        induction d with
        | nil => simp [lookupA] at h
        | cons p tl ih =>
            obtain ⟨k, w⟩ := p
            by_cases hk : k = q
            · subst hk
              simp [lookupA] at h
              simp [h]
            · simp only [lookupA, if_neg hk] at h
              simp only [List.map_cons, List.nodup_cons] at hn
              exact List.mem_cons_of_mem _ (ih hn.2 h)
      exact (lookupA_eq_some_of_mem hn2 (hp.mem_iff.mp hm)).symm

theorem mem_of_lookupA_eq_some {α β : Type} [DecidableEq α] {d : List (α × β)}
    {q : α} {v : β} (h : lookupA d q = some v) : (q, v) ∈ d := by
  induction d with
  | nil => simp [lookupA] at h
  | cons p tl ih =>
      obtain ⟨k, w⟩ := p
      by_cases hk : k = q
      · subst hk
        simp [lookupA] at h
        simp [h]
      · simp only [lookupA, if_neg hk] at h
        exact List.mem_cons_of_mem _ (ih h)

/-! ## Cell-effect lemmas for the merge primitives -/

theorem celda_updNivel (torres : Torres) (t0 n0 : Int) (g : Nivel → Nivel)
    (t n : Int) (k : String) :
    celda (updA torres t0 emptyTorre
        (fun tr => { tr with niveles := updA tr.niveles n0 [] g })) t n k =
      if t = t0 ∧ n = n0 then lookupA (g (nivelActual torres t0 n0)) k
      else celda torres t n k := by
  by_cases ht : t = t0
  · subst ht
    rw [celda, lookupA_updA_self]
    by_cases hn : n = n0
    · subst hn
      rw [if_pos ⟨rfl, rfl⟩]
      simp only [Option.some_bind]
      rw [lookupA_updA_self]
      simp [nivelActual]
    · have hcond : ¬ (t = t ∧ n = n0) := fun hc => hn hc.2
      rw [if_neg hcond]
      simp only [Option.some_bind]
      rw [lookupA_updA_ne _ _ _ hn]
      cases hlk : lookupA torres t with
      | none => simp [celda, hlk, emptyTorre, lookupA]
      | some tr => simp [celda, hlk]
  · have hcond : ¬ (t = t0 ∧ n = n0) := fun hc => ht hc.1
    rw [if_neg hcond, celda, celda, lookupA_updA_ne _ _ _ ht]

theorem celda_updA_niveles_eq (torres : Torres) (t0 : Int)
    (f : TorreRec → TorreRec) (hf : ∀ tr, (f tr).niveles = tr.niveles)
    (t n : Int) (k : String) :
    celda (updA torres t0 emptyTorre f) t n k = celda torres t n k := by
  by_cases h : t = t0
  · subst h
    rw [celda, celda, lookupA_updA_self]
    cases hlk : lookupA torres t with
    | none => simp [hf, emptyTorre, lookupA]
    | some tr => simp [hf]
  · rw [celda, celda, lookupA_updA_ne _ _ _ h]

theorem celda_setNombre (torres : Torres) (t0 : Int) (nm : String)
    (t n : Int) (k : String) :
    celda (setNombre torres t0 nm) t n k = celda torres t n k := by
  unfold setNombre
  apply celda_updA_niveles_eq
  intro tr
  rfl

theorem celda_switchPair (t0 : Int) (row : Row) (torres : Torres)
    (kv : String × String) (t n : Int) (k : String) :
    celda (switchPair t0 row torres kv) t n k = celda torres t n k := by
  simp only [switchPair]
  repeat' split
  all_goals first
    | rfl
    | (apply celda_updA_niveles_eq; intro tr; rfl)

theorem celda_setTexto (torres : Torres) (t0 n0 : Int) (k0 s : String)
    (t n : Int) (k : String) :
    celda (setTexto torres t0 n0 k0 s) t n k =
      if t = t0 ∧ n = n0 then
        lookupA (setA (nivelActual torres t0 n0) k0 (PyVal.vstr s)) k
      else celda torres t n k :=
  celda_updNivel torres t0 n0 _ t n k

theorem celda_mergeCantidad (torres : Torres) (t0 n0 : Int) (k0 s : String)
    (t n : Int) (k : String) :
    celda (mergeCantidad torres t0 n0 k0 s) t n k =
      if t = t0 ∧ n = n0 then
        lookupA ((match pyInt? s with
          | some v =>
              updA (nivelActual torres t0 n0) k0 (PyVal.vint 0) (fun old =>
                match old with
                | PyVal.vint m => PyVal.vint (m + v)
                | PyVal.vstr w => PyVal.vstr w)
          | none => ensureA (nivelActual torres t0 n0) k0 (PyVal.vint 0))) k
      else celda torres t n k :=
  celda_updNivel torres t0 n0 _ t n k

/-! ## Well-formedness: all dict key lists are duplicate-free -/

theorem WFTorres_updA (torres : Torres) (t0 : Int) (f : TorreRec → TorreRec)
    (h : WFTorres torres)
    (hf : ∀ tr, ((tr.switches.map Prod.fst)).Nodup →
      (((f tr).switches.map Prod.fst)).Nodup)
    (hempty : (((f emptyTorre).switches.map Prod.fst)).Nodup) :
    WFTorres (updA torres t0 emptyTorre f) := by
  refine ⟨nodup_keys_updA _ _ _ _ h.1, ?_⟩
  intro p hp
  rcases mem_updA _ _ _ _ _ hp with h1 | h1
  · exact h.2 p h1
  · subst h1
    cases hlk : lookupA torres t0 with
    | none => simpa [hlk] using hempty
    | some tr =>
        have : ((tr.switches.map Prod.fst)).Nodup :=
          h.2 (t0, tr) (mem_of_lookupA_eq_some hlk)
        simpa [hlk] using hf tr this

theorem WFTorres_mergePair (t n : Int) (torres : Torres) (kv : String × String)
    (h : WFTorres torres) : WFTorres (mergePair t n torres kv) := by
  unfold mergePair
  split
  · exact h
  · split
    · unfold mergeCantidad
      refine WFTorres_updA _ _ _ h (fun tr htr => htr) ?_
      simp [emptyTorre]
    · split
      · unfold setTexto
        refine WFTorres_updA _ _ _ h (fun tr htr => htr) ?_
        simp [emptyTorre]
      · exact h

theorem WFTorres_switchPair (t : Int) (row : Row) (torres : Torres)
    (kv : String × String) (h : WFTorres torres) :
    WFTorres (switchPair t row torres kv) := by
  simp only [switchPair]
  repeat' split
  all_goals first
    | exact h
    | (refine WFTorres_updA _ _ _ h
        (fun tr htr => nodup_keys_setA _ _ _ htr) ?_
       simp [emptyTorre, setA])

theorem WFTorres_foldl {γ : Type} (step : Torres → γ → Torres)
    (hstep : ∀ S x, WFTorres S → WFTorres (step S x)) :
    ∀ (l : List γ) (S : Torres), WFTorres S → WFTorres (l.foldl step S)
  | [], _, h => h
  | x :: tl, S, h => WFTorres_foldl step hstep tl (step S x) (hstep S x h)

theorem WFTorres_procesarFila (torres : Torres) (row : Row)
    (h : WFTorres torres) : WFTorres (procesarFila torres row) := by
  unfold procesarFila
  split
  · split
    · refine WFTorres_foldl _ (fun S x hS => WFTorres_switchPair _ _ S x hS) _ _ ?_
      refine WFTorres_foldl _ (fun S x hS => WFTorres_mergePair _ _ S x hS) _ _ ?_
      split
      · unfold setNombre
        refine WFTorres_updA _ _ _ h (fun tr htr => htr) ?_
        simp [emptyTorre]
      · exact h
    · exact h
  · exact h

theorem WFTorres_estado (rows : List Row) :
    WFTorres (rows.foldl procesarFila []) :=
  WFTorres_foldl _ (fun S x hS => WFTorres_procesarFila S x hS) rows []
    ⟨List.nodup_nil, by intro p hp; cases hp⟩

theorem cargar_perm_estado (rows : List Row) :
    (cargarDatosCsv rows).Perm (rows.foldl procesarFila []) := by
  unfold cargarDatosCsv
  exact sortLe_perm _ _

theorem WFTorres_cargar (rows : List Row) : WFTorres (cargarDatosCsv rows) := by
  have hperm := cargar_perm_estado rows
  have hwf := WFTorres_estado rows
  refine ⟨?_, ?_⟩
  · exact (hperm.map Prod.fst).nodup_iff.mpr hwf.1
  · intro p hp
    exact hwf.2 p (hperm.mem_iff.mp hp)

theorem celda_cargar (rows : List Row) (t n : Int) (k : String) :
    celda (cargarDatosCsv rows) t n k =
      celda (rows.foldl procesarFila []) t n k := by
  unfold celda
  rw [lookupA_perm (WFTorres_cargar rows).1 (cargar_perm_estado rows)]

/-! ## Processing a single-data-column row -/

theorem pyInt?_ne_vacio {s : String} {v : Int} (h : pyInt? s = some v) : s ≠ "" := by
  intro hs
  subst hs
  simp [pyInt?] at h

theorem lookupA_nivelActual (S : Torres) (t n : Int) (k : String) :
    lookupA (nivelActual S t n) k = celda S t n k := by
  unfold nivelActual celda
  cases h1 : lookupA S t with
  | none => simp [emptyTorre, lookupA]
  | some tr =>
      cases h2 : lookupA tr.niveles n with
      | none => simp [h2, lookupA]
      | some nd => simp [h2]

theorem celda_setTexto_ne (S : Torres) (t0 n0 : Int) (k0 s : String)
    (t n : Int) (k : String) (hk : k ≠ k0) :
    celda (setTexto S t0 n0 k0 s) t n k = celda S t n k := by
  rw [celda_setTexto]
  split
  · next hc =>
      obtain ⟨h1, h2⟩ := hc
      subst h1; subst h2
      rw [lookupA_setA_ne _ _ hk, lookupA_nivelActual]
  · rfl

theorem celda_mergeCantidad_self (S : Torres) (t0 n0 : Int) (k0 sv : String)
    (v : Int) (hv : pyInt? sv = some v) :
    celda (mergeCantidad S t0 n0 k0 sv) t0 n0 k0 =
      some (match (celda S t0 n0 k0).getD (PyVal.vint 0) with
            | PyVal.vint m => PyVal.vint (m + v)
            | PyVal.vstr w => PyVal.vstr w) := by
  rw [celda_mergeCantidad, if_pos ⟨rfl, rfl⟩]
  simp only [hv]
  rw [lookupA_updA_self, lookupA_nivelActual]

theorem celda_foldl_switchPair (t0 : Int) (row0 : Row) (l : List (String × String))
    (S : Torres) (t n : Int) (k : String) :
    celda (l.foldl (switchPair t0 row0) S) t n k = celda S t n k := by
  induction l generalizing S with
  | nil => rfl
  | cons x tl ih => rw [List.foldl_cons, ih, celda_switchPair]

theorem mergePair_TORRE (t n : Int) (S : Torres) (st : String) (h : st ≠ "") :
    mergePair t n S ("TORRE", st) = S := by
  simp [mergePair, h, esClaveCantidad, esClaveTexto, pyIn, hasSub, leadsWith]

theorem mergePair_NIVEL (t n : Int) (S : Torres) (sn : String) (h : sn ≠ "") :
    mergePair t n S ("NIVEL", sn) = S := by
  simp [mergePair, h, esClaveCantidad, esClaveTexto, pyIn, hasSub, leadsWith]

theorem mergePair_nombre (t n : Int) (S : Torres) (nm : String) (h : nm ≠ "") :
    mergePair t n S ("torre_nombre", nm) = setTexto S t n "torre_nombre" nm := by
  simp [mergePair, h, esClaveCantidad, esClaveTexto, pyIn, hasSub, leadsWith]

theorem mergePair_vacio (t n : Int) (S : Torres) (k : String) :
    mergePair t n S (k, "") = S := by
  simp [mergePair]

theorem mergePair_cantidad (t n : Int) (S : Torres) (sk sv : String)
    (hq : esClaveCantidad sk = true) (hv : sv ≠ "") :
    mergePair t n S (sk, sv) = mergeCantidad S t n sk sv := by
  simp [mergePair, hq, hv]

theorem esClaveCantidad_torre_nombre : esClaveCantidad "torre_nombre" = false := by
  decide

/-- Net effect of processing one `mkRow` on the cell of its data column,
when the column matches the quantity pattern and its value parses: the
parsed value is added to the cell (an existing string cell is kept,
mirroring the swallowed `TypeError`). -/
theorem celda_procesarFila_mkRow (S : Torres) (st sn nm sk sv : String)
    (t n v : Int)
    (ht : pyInt? st = some t) (hn : pyInt? sn = some n)
    (hq : esClaveCantidad sk = true) (hv : pyInt? sv = some v) :
    celda (procesarFila S (mkRow st sn nm sk sv)) t n sk =
      some (match (celda S t n sk).getD (PyVal.vint 0) with
            | PyVal.vint m => PyVal.vint (m + v)
            | PyVal.vstr w => PyVal.vstr w) := by
  have hst := pyInt?_ne_vacio ht
  have hsn := pyInt?_ne_vacio hn
  have hsv := pyInt?_ne_vacio hv
  have hsk : sk ≠ "torre_nombre" := by
    intro hh
    rw [hh, esClaveCantidad_torre_nombre] at hq
    cases hq
  have l1 : lookupA (mkRow st sn nm sk sv) "TORRE" = some st := by
    simp [mkRow, lookupA]
  have l2 : lookupA (mkRow st sn nm sk sv) "NIVEL" = some sn := by
    simp [mkRow, lookupA]
  have l3 : lookupA (mkRow st sn nm sk sv) "torre_nombre" = some nm := by
    simp [mkRow, lookupA]
  unfold procesarFila
  rw [l1, l2, l3]
  simp only [ht, hn]
  rw [celda_foldl_switchPair]
  show celda ((mkRow st sn nm sk sv).foldl (mergePair t n) _) t n sk = _
  simp only [mkRow, List.foldl_cons, List.foldl_nil]
  rw [mergePair_TORRE _ _ _ _ hst, mergePair_NIVEL _ _ _ _ hsn]
  by_cases hnm : nm = ""
  · subst hnm
    rw [mergePair_vacio, mergePair_cantidad _ _ _ _ _ hq hsv,
        celda_mergeCantidad_self _ _ _ _ _ _ hv]
    simp only [if_neg (by simp : ¬ ("" : String) ≠ "")]
  · rw [mergePair_nombre _ _ _ _ hnm, mergePair_cantidad _ _ _ _ _ hq hsv,
        celda_mergeCantidad_self _ _ _ _ _ _ hv,
        celda_setTexto_ne _ _ _ _ _ _ _ _ hsk,
        if_pos hnm, celda_setNombre]

/-! ## Claims C2 and C10 -/

/-- C2: two input rows with identical (tower id, level id) and the same
quantity column (a `Qty` column) merge by summing the two parsed integer
values rather than overwriting: the merged output stores their sum at
(tower, level, column).  The rows carry the `torre_nombre` column (present
in every `csv.DictReader` row; a row missing it is skipped wholesale). -/
theorem merge_aditivo_cantidades
    (st sn nm1 nm2 sk sv1 sv2 : String) (t n v1 v2 : Int)
    (ht : pyInt? st = some t) (hn : pyInt? sn = some n)
    (hq : pyIn "Qty" sk = true)
    (hv1 : pyInt? sv1 = some v1) (hv2 : pyInt? sv2 = some v2) :
    celda (cargarDatosCsv [mkRow st sn nm1 sk sv1, mkRow st sn nm2 sk sv2]) t n sk =
      some (PyVal.vint (v1 + v2)) := by
  have hq2 : esClaveCantidad sk = true := by
    simp [esClaveCantidad, hq]
  rw [celda_cargar]
  simp only [List.foldl_cons, List.foldl_nil]
  rw [celda_procesarFila_mkRow _ _ _ _ _ _ _ _ _ ht hn hq2 hv2,
      celda_procesarFila_mkRow _ _ _ _ _ _ _ _ _ ht hn hq2 hv1]
  have hbase : celda ([] : Torres) t n sk = none := rfl
  rw [hbase]
  simp [add_assoc, zero_add]

/-- C2 witness: the spec example `{TORRE:1, NIVEL:2, apQty:1}` merged with
`{TORRE:1, NIVEL:2, apQty:2}` yields `apQty = 3` at tower 1, level 2. -/
theorem merge_aditivo_cantidades_testigo :
    celda (cargarDatosCsv
        [mkRow "1" "2" "" "apQty" "1", mkRow "1" "2" "" "apQty" "2"]) 1 2 "apQty" =
      some (PyVal.vint 3) :=
  merge_aditivo_cantidades "1" "2" "" "" "apQty" "1" "2" 1 2 1 2
    (by decide) (by decide) (by decide) (by decide) (by decide)

/-- C10: a row column whose key contains `switch_` but not `_modelo` (a
switch-indicator column) with an integer-parseable value is additively
merged into the (tower, level) quantity map under the indicator key itself,
exactly like a device-quantity column, so merged level records carry
switch-indicator keys alongside device-quantity keys. -/
theorem merge_indicador_switch
    (st sn nm1 nm2 sk sv1 sv2 : String) (t n v1 v2 : Int)
    (ht : pyInt? st = some t) (hn : pyInt? sn = some n)
    (hsw : pyIn "switch_" sk = true) (hmo : pyIn "_modelo" sk = false)
    (hv1 : pyInt? sv1 = some v1) (hv2 : pyInt? sv2 = some v2) :
    celda (cargarDatosCsv [mkRow st sn nm1 sk sv1, mkRow st sn nm2 sk sv2]) t n sk =
      some (PyVal.vint (v1 + v2)) := by
  have hq2 : esClaveCantidad sk = true := by
    simp [esClaveCantidad, hsw, hmo]
  rw [celda_cargar]
  simp only [List.foldl_cons, List.foldl_nil]
  rw [celda_procesarFila_mkRow _ _ _ _ _ _ _ _ _ ht hn hq2 hv2,
      celda_procesarFila_mkRow _ _ _ _ _ _ _ _ _ ht hn hq2 hv1]
  have hbase : celda ([] : Torres) t n sk = none := rfl
  rw [hbase]
  simp [add_assoc, zero_add]

/-- C10 witness: two rows with `switch_core = 1` for the same tower and
level leave `switch_core = 2` in the merged level record. -/
theorem merge_indicador_switch_testigo :
    celda (cargarDatosCsv
        [mkRow "1" "0" "" "switch_core" "1", mkRow "1" "0" "" "switch_core" "1"])
      1 0 "switch_core" = some (PyVal.vint 2) :=
  merge_indicador_switch "1" "0" "" "" "switch_core" "1" "1" 1 0 1 1
    (by decide) (by decide) (by decide) (by decide) (by decide) (by decide)

/-! ## Claim C3: non-negativity of stored quantities -/

theorem torres_updA_pred (P : TorreRec → Prop) (torres : Torres) (t0 : Int)
    (f : TorreRec → TorreRec) (h : ∀ p ∈ torres, P p.2)
    (hf : ∀ tr, P tr → P (f tr)) (hempty : P (f emptyTorre)) :
    ∀ p ∈ updA torres t0 emptyTorre f, P p.2 := by
  intro p hp
  rcases mem_updA _ _ _ _ _ hp with h1 | h1
  · exact h p h1
  · subst h1
    cases hlk : lookupA torres t0 with
    | none => simpa [hlk] using hempty
    | some tr =>
        simpa [hlk] using hf tr (h (t0, tr) (mem_of_lookupA_eq_some hlk))

theorem torreNoNeg_updNivel (tr : TorreRec) (n : Int) (g : Nivel → Nivel)
    (htr : torreNoNegativa tr)
    (hg : ∀ nd, (∀ c ∈ nd, valNoNegativo c.2) → ∀ c ∈ g nd, valNoNegativo c.2) :
    torreNoNegativa { tr with niveles := updA tr.niveles n [] g } := by
  intro nv hnv
  rcases mem_updA _ _ _ _ _ hnv with h1 | h1
  · exact htr nv h1
  · subst h1
    apply hg
    cases hlk : lookupA tr.niveles n with
    | none => simp [hlk, lookupA]
    | some nd =>
        simp only [hlk, Option.getD_some]
        exact htr (n, nd) (mem_of_lookupA_eq_some hlk)

theorem mergeG_noneg (k s : String) (hs : 0 ≤ (pyInt? s).getD 0) (nd : Nivel)
    (hnd : ∀ c ∈ nd, valNoNegativo c.2) :
    ∀ c ∈ (match pyInt? s with
           | some v =>
               updA nd k (PyVal.vint 0) (fun old =>
                 match old with
                 | PyVal.vint m => PyVal.vint (m + v)
                 | PyVal.vstr w => PyVal.vstr w)
           | none => ensureA nd k (PyVal.vint 0)),
      valNoNegativo c.2 := by
  cases hps : pyInt? s with
  | some v =>
      have hv : 0 ≤ v := by rw [hps] at hs; simpa using hs
      intro c hc
      simp only at hc
      rcases mem_updA _ _ _ _ _ hc with h1 | h1
      · exact hnd c h1
      · subst h1
        cases hold : (lookupA nd k).getD (PyVal.vint 0) with
        | vint m =>
            have hm : 0 ≤ m := by
              cases hl2 : lookupA nd k with
              | none =>
                  rw [hl2] at hold
                  simp only [Option.getD_none, PyVal.vint.injEq] at hold
                  omega
              | some pv =>
                  rw [hl2] at hold
                  simp only [Option.getD_some] at hold
                  subst hold
                  simpa [valNoNegativo] using
                    hnd (k, PyVal.vint m) (mem_of_lookupA_eq_some hl2)
            simp only [hold, valNoNegativo]
            omega
        | vstr w => simp [hold, valNoNegativo]
  | none =>
      intro c hc
      simp only at hc
      rcases mem_ensureA _ _ _ _ hc with h1 | h1
      · exact hnd c h1
      · subst h1
        simp [valNoNegativo]

theorem cantidades_mergeCantidad (torres : Torres) (t n : Int) (k s : String)
    (h : cantidadesNoNegativas torres) (hs : 0 ≤ (pyInt? s).getD 0) :
    cantidadesNoNegativas (mergeCantidad torres t n k s) := by
  unfold mergeCantidad
  refine torres_updA_pred torreNoNegativa _ _ _ h ?_ ?_
  · intro tr htr
    exact torreNoNeg_updNivel tr n _ htr (fun nd hnd => mergeG_noneg k s hs nd hnd)
  · exact torreNoNeg_updNivel emptyTorre n _ (fun nv hnv => by cases hnv)
      (fun nd hnd => mergeG_noneg k s hs nd hnd)

theorem cantidades_setTexto (torres : Torres) (t n : Int) (k s : String)
    (h : cantidadesNoNegativas torres) :
    cantidadesNoNegativas (setTexto torres t n k s) := by
  unfold setTexto
  have hg : ∀ nd, (∀ c ∈ nd, valNoNegativo c.2) →
      ∀ c ∈ setA nd k (PyVal.vstr s), valNoNegativo c.2 := by
    intro nd hnd c hc
    rcases mem_setA _ _ _ _ hc with h1 | h1
    · exact hnd c h1
    · subst h1; trivial
  refine torres_updA_pred torreNoNegativa _ _ _ h ?_ ?_
  · intro tr htr
    exact torreNoNeg_updNivel tr n _ htr hg
  · exact torreNoNeg_updNivel emptyTorre n _ (fun nv hnv => by cases hnv) hg

theorem cantidades_nivelesEq (torres : Torres) (t0 : Int) (f : TorreRec → TorreRec)
    (hf : ∀ tr, (f tr).niveles = tr.niveles)
    (h : cantidadesNoNegativas torres) :
    cantidadesNoNegativas (updA torres t0 emptyTorre f) := by
  refine torres_updA_pred torreNoNegativa _ _ _ h ?_ ?_
  · intro tr htr nv hnv
    rw [hf tr] at hnv
    exact htr nv hnv
  · intro nv hnv
    rw [hf emptyTorre] at hnv
    cases hnv

theorem cantidades_mergePair (t n : Int) (torres : Torres) (kv : String × String)
    (h : cantidadesNoNegativas torres)
    (hkv : esClaveCantidad kv.1 = true → 0 ≤ (pyInt? kv.2).getD 0) :
    cantidadesNoNegativas (mergePair t n torres kv) := by
  unfold mergePair
  split
  · exact h
  · split
    · next hq => exact cantidades_mergeCantidad _ _ _ _ _ h (hkv hq)
    · split
      · exact cantidades_setTexto _ _ _ _ _ h
      · exact h

theorem cantidades_switchPair (t : Int) (row : Row) (torres : Torres)
    (kv : String × String) (h : cantidadesNoNegativas torres) :
    cantidadesNoNegativas (switchPair t row torres kv) := by
  simp only [switchPair]
  repeat' split
  all_goals first
    | exact h
    | exact cantidades_nivelesEq _ _ _ (fun tr => rfl) h

theorem cantidades_foldl {γ : Type} (step : Torres → γ → Torres) (Q : γ → Prop)
    (hstep : ∀ S x, Q x → cantidadesNoNegativas S → cantidadesNoNegativas (step S x)) :
    ∀ (l : List γ) (S : Torres), (∀ x ∈ l, Q x) → cantidadesNoNegativas S →
      cantidadesNoNegativas (l.foldl step S)
  | [], _, _, hS => hS
  | x :: tl, S, hl, hS =>
      cantidades_foldl step Q hstep tl (step S x)
        (fun y hy => hl y (List.mem_cons_of_mem _ hy))
        (hstep S x (hl x (List.mem_cons_self _ _)) hS)

theorem cantidades_procesarFila (S : Torres) (row : Row)
    (h : cantidadesNoNegativas S)
    (hrow : ∀ kv ∈ row, esClaveCantidad kv.1 = true → 0 ≤ (pyInt? kv.2).getD 0) :
    cantidadesNoNegativas (procesarFila S row) := by
  unfold procesarFila
  split
  · split
    · refine cantidades_foldl _ (fun _ => True)
        (fun S2 x _ hS2 => cantidades_switchPair _ _ S2 x hS2) _ _
        (fun x _ => trivial) ?_
      refine cantidades_foldl _
        (fun kv => esClaveCantidad kv.1 = true → 0 ≤ (pyInt? kv.2).getD 0)
        (fun S2 x hx hS2 => cantidades_mergePair _ _ S2 x hS2 hx) _ _ hrow ?_
      split
      · exact cantidades_nivelesEq _ _ _ (fun tr => rfl) h
      · exact h
    · exact h
  · exact h

/-- C3 amended: every stored quantity is non-negative whenever every
quantity-pattern column value that parses as an integer is non-negative
(blank and non-numeric values coerce to zero or are ignored); a value
parsing as a negative integer, however, is stored as-is. -/
theorem cantidades_no_negativas_condicional (rows : List Row)
    (h : ∀ row ∈ rows, ∀ kv ∈ row,
      esClaveCantidad kv.1 = true → 0 ≤ (pyInt? kv.2).getD 0) :
    cantidadesNoNegativas (cargarDatosCsv rows) := by
  have hstate : cantidadesNoNegativas (rows.foldl procesarFila []) :=
    cantidades_foldl procesarFila
      (fun row => ∀ kv ∈ row, esClaveCantidad kv.1 = true → 0 ≤ (pyInt? kv.2).getD 0)
      (fun S x hx hS => cantidades_procesarFila S x hS hx) rows [] h
      (fun p hp => by cases hp)
  intro p hp
  exact hstate p ((cargar_perm_estado rows).mem_iff.mp hp)

/-- C3 witness: a dataset with the single non-negative quantity row
`{TORRE:1, NIVEL:2, apQty:1}` satisfies the hypothesis and the invariant. -/
theorem cantidades_no_negativas_testigo :
    (∀ row ∈ [mkRow "1" "2" "" "apQty" "1"], ∀ kv ∈ row,
      esClaveCantidad kv.1 = true → 0 ≤ (pyInt? kv.2).getD 0) ∧
    cantidadesNoNegativas (cargarDatosCsv [mkRow "1" "2" "" "apQty" "1"]) :=
  ⟨by decide, cantidades_no_negativas_condicional _ (by decide)⟩

/-- C3 counterexample: the row `{TORRE:1, NIVEL:1, torre_nombre:T,
apQty:"-5"}` parses the negative-looking string and stores `-5`, violating
the claimed unconditional non-negativity. -/
theorem cantidades_negativas_contraejemplo :
    ¬ cantidadesNoNegativas (cargarDatosCsv [mkRow "1" "1" "T" "apQty" "-5"]) := by
  decide

/-- The negative value actually stored at the counterexample input. -/
theorem cantidades_negativas_valor :
    celda (cargarDatosCsv [mkRow "1" "1" "T" "apQty" "-5"]) 1 1 "apQty" =
      some (PyVal.vint (-5)) := by
  decide

/-! ## Claims C7 and C9: ordering and id reassignment -/

theorem intLe_total (a b : Int × TorreRec) :
    decide (a.1 ≤ b.1) = true ∨ decide (b.1 ≤ a.1) = true := by
  rcases Int.le_total a.1 b.1 with h | h
  · exact Or.inl (decide_eq_true h)
  · exact Or.inr (decide_eq_true h)

theorem intLe_trans (a b c : Int × TorreRec)
    (h1 : decide (a.1 ≤ b.1) = true) (h2 : decide (b.1 ≤ c.1) = true) :
    decide (a.1 ≤ c.1) = true :=
  decide_eq_true (le_trans (of_decide_eq_true h1) (of_decide_eq_true h2))

theorem cargar_pairwise_le (rows : List Row) :
    (cargarDatosCsv rows).Pairwise (fun a b => a.1 ≤ b.1) := by
  have h := pairwise_sortLe (fun a b : Int × TorreRec => decide (a.1 ≤ b.1))
    intLe_total intLe_trans (rows.foldl procesarFila [])
  exact (h.imp (fun hab => of_decide_eq_true hab))

theorem cargar_pairwise_lt (rows : List Row) :
    (cargarDatosCsv rows).Pairwise (fun a b => a.1 < b.1) := by
  have h1 := cargar_pairwise_le rows
  have h2 : (cargarDatosCsv rows).Pairwise (fun a b => a.1 ≠ b.1) :=
    List.pairwise_map.mp (WFTorres_cargar rows).1
  exact (h1.and h2).imp (fun hab => lt_of_le_of_ne hab.1 hab.2)

theorem nivelesOrdenados_pairwise_lt (ts : List TorreRec) :
    (nivelesOrdenados ts).Pairwise (fun a b => a < b) := by
  have htot : ∀ a b : Int, decide (a ≤ b) = true ∨ decide (b ≤ a) = true := by
    intro a b
    rcases Int.le_total a b with h | h
    · exact Or.inl (decide_eq_true h)
    · exact Or.inr (decide_eq_true h)
  have htrans : ∀ a b c : Int, decide (a ≤ b) = true → decide (b ≤ c) = true →
      decide (a ≤ c) = true := fun a b c h1 h2 =>
    decide_eq_true (le_trans (of_decide_eq_true h1) (of_decide_eq_true h2))
  have h1 : (nivelesOrdenados ts).Pairwise (fun a b => a ≤ b) :=
    (pairwise_sortLe _ htot htrans _).imp (fun hab => of_decide_eq_true hab)
  have hnd : (nivelesOrdenados ts).Nodup := by
    unfold nivelesOrdenados
    exact (sortLe_perm _ _).nodup_iff.mpr (List.nodup_dedup _)
  exact (h1.and hnd).imp (fun hab => lt_of_le_of_ne hab.1 hab.2)

theorem mem_nivelesOrdenados (ts : List TorreRec) (n : Int) :
    n ∈ nivelesOrdenados ts ↔ ∃ t ∈ ts, n ∈ t.niveles.map Prod.fst := by
  unfold nivelesOrdenados
  rw [(sortLe_perm _ _).mem_iff, List.mem_dedup, List.mem_flatMap]

theorem alturasAux_getElem? (gap y : Rat) (l : List Int) (i : Nat) :
    (alturasAux gap y l)[i]? =
      (l[i]?).map (fun nid => (nid, y + (i : Rat) * gap)) := by
  induction l generalizing y i with
  | nil => simp [alturasAux]
  | cons n ns ih =>
      cases i with
      | zero => simp [alturasAux]
      | succ j =>
          simp only [alturasAux, List.getElem?_cons_succ]
          rw [ih]
          cases hj : ns[j]? with
          | none => rfl
          | some nid =>
              simp only [Option.map_some', Prod.mk.injEq, true_and]
              push_cast
              ring_nf

/-- C7: towers appear in strictly ascending original-tower-id order in the
merged output for every input row sequence, and the layout collects the set
of all observed level ids, sorts it strictly ascending, and assigns the
k-th level the vertical offset `Y_INICIAL + k * ESPACIO_ENTRE_NIVELES`. -/
theorem orden_ascendente_torres_niveles (cfg : Cfg) (rows : List Row) :
    ((cargarDatosCsv rows).Pairwise (fun a b => a.1 < b.1)) ∧
    ((nivelesOrdenados (torresList rows)).Pairwise (fun a b => a < b)) ∧
    (∀ n : Int, n ∈ nivelesOrdenados (torresList rows) ↔
      ∃ t ∈ torresList rows, n ∈ t.niveles.map Prod.fst) ∧
    (∀ i : Nat, (alturasNiveles cfg (torresList rows))[i]? =
      ((nivelesOrdenados (torresList rows))[i]?).map
        (fun nid => (nid, cfg.Y_INICIAL + (i : Rat) * cfg.ESPACIO_ENTRE_NIVELES))) :=
  ⟨cargar_pairwise_lt rows,
   nivelesOrdenados_pairwise_lt _,
   mem_nivelesOrdenados _,
   fun i => alturasAux_getElem? _ _ _ i⟩

theorem asignarTorresAux_getElem? (cfg : Cfg) (i0 : Nat) (x : Rat)
    (ts : List TorreRec) (j : Nat) :
    (asignarTorresAux cfg i0 x ts)[j]? =
      (ts[j]?).map (fun t => TorreL.mk (i0 + j)
        (x + (j : Rat) * (cfg.LONGITUD_PISO + cfg.SEPARACION_ENTRE_TORRES)) t) := by
  induction ts generalizing i0 x j with
  | nil => simp [asignarTorresAux]
  | cons t ts ih =>
      cases j with
      | zero => simp [asignarTorresAux]
      | succ j2 =>
          simp only [asignarTorresAux, List.getElem?_cons_succ]
          rw [ih]
          cases hj : ts[j2]? with
          | none => rfl
          | some t2 =>
              simp only [Option.map_some', Option.some.injEq, TorreL.mk.injEq, and_true]
              refine ⟨by omega, by push_cast; ring⟩

/-- C9: after the merge, `generar_lisp` reassigns each tower's id to its
list position (the k-th tower of the ascending-original-id list gets id k,
with its record unchanged), so the tower with id 0 used as the MDF for
backbone cabling is exactly the tower with the smallest original
identifier in the dataset, whatever that identifier is. -/
theorem ids_reasignados_posicionales (cfg : Cfg) (rows : List Row) :
    (∀ i : Nat, ∀ t : TorreL,
      (asignarTorres cfg (torresList rows))[i]? = some t → t.id = i) ∧
    (∀ i : Nat, ((asignarTorres cfg (torresList rows))[i]?).map TorreL.datos =
      ((cargarDatosCsv rows)[i]?).map Prod.snd) ∧
    (∀ p q, (cargarDatosCsv rows).head? = some p → q ∈ cargarDatosCsv rows →
      p.1 ≤ q.1) := by
  refine ⟨?_, ?_, ?_⟩
  · intro i t hit
    have h2 := asignarTorresAux_getElem? cfg 0 cfg.X_INICIAL (torresList rows) i
    rw [show asignarTorres cfg (torresList rows) =
      asignarTorresAux cfg 0 cfg.X_INICIAL (torresList rows) from rfl] at hit
    rw [hit] at h2
    cases hj : (torresList rows)[i]? with
    | none => rw [hj] at h2; simp at h2
    | some t2 =>
        rw [hj] at h2
        simp only [Option.map_some', Option.some.injEq] at h2
        rw [h2]
        simp
  · intro i
    unfold torresList
    rw [show asignarTorres cfg ((cargarDatosCsv rows).map (fun p => p.2)) =
      asignarTorresAux cfg 0 cfg.X_INICIAL ((cargarDatosCsv rows).map (fun p => p.2))
      from rfl]
    rw [asignarTorresAux_getElem?]
    rw [List.getElem?_map]
    cases hj : (cargarDatosCsv rows)[i]? with
    | none => rfl
    | some p => rfl
  · intro p q hp hq
    have hpair := cargar_pairwise_le rows
    cases hl : cargarDatosCsv rows with
    | nil => rw [hl] at hp; simp at hp
    | cons a tl =>
        rw [hl] at hp hq
        simp only [List.head?_cons, Option.some.injEq] at hp
        subst hp
        rw [hl] at hpair
        rcases List.mem_cons.mp hq with h1 | h1
        · subst h1; exact le_refl _
        · exact (List.pairwise_cons.mp hpair).1 q h1

/-! ## Claim C5: backbone completeness -/

theorem lookupA_isSome_iff {α β : Type} [DecidableEq α] (d : List (α × β)) (q : α) :
    (lookupA d q).isSome ↔ q ∈ d.map Prod.fst := by
  cases h : lookupA d q with
  | none =>
      simp only [Option.isSome_none, Bool.false_eq_true, false_iff]
      exact (lookupA_eq_none_iff d q).mp h
  | some v =>
      simp only [Option.isSome_some, true_iff]
      exact List.mem_map.mpr ⟨(q, v), mem_of_lookupA_eq_some h, rfl⟩

theorem mem_asignarTorresAux_id_ge (cfg : Cfg) (i0 : Nat) (x : Rat)
    (ts : List TorreRec) :
    ∀ t ∈ asignarTorresAux cfg i0 x ts, i0 ≤ t.id := by
  induction ts generalizing i0 x with
  | nil => intro t ht; cases ht
  | cons a as ih =>
      intro t ht
      rcases List.mem_cons.mp ht with h1 | h1
      · subst h1; exact le_refl _
      · exact Nat.le_of_succ_le (ih (i0 + 1) _ t h1)

theorem asignarTorresAux_pairwise_id (cfg : Cfg) (i0 : Nat) (x : Rat)
    (ts : List TorreRec) :
    (asignarTorresAux cfg i0 x ts).Pairwise (fun a b => a.id < b.id) := by
  induction ts generalizing i0 x with
  | nil => exact List.Pairwise.nil
  | cons a as ih =>
      refine List.pairwise_cons.mpr ⟨?_, ih _ _⟩
      intro t ht
      have h2 := mem_asignarTorresAux_id_ge cfg (i0 + 1) _ as t ht
      show i0 < t.id
      omega

theorem asignarTorres_ids_nodup (cfg : Cfg) (ts : List TorreRec) :
    ((asignarTorres cfg ts).map TorreL.id).Nodup :=
  List.pairwise_map.mpr
    ((asignarTorresAux_pairwise_id cfg 0 cfg.X_INICIAL ts).imp
      (fun h => Nat.ne_of_lt h))

theorem mem_asignarTorresAux_datos (cfg : Cfg) (i0 : Nat) (x : Rat)
    (ts : List TorreRec) :
    ∀ t ∈ asignarTorresAux cfg i0 x ts, t.datos ∈ ts := by
  induction ts generalizing i0 x with
  | nil => intro t ht; cases ht
  | cons a as ih =>
      intro t ht
      rcases List.mem_cons.mp ht with h1 | h1
      · subst h1; exact List.mem_cons_self _ _
      · exact List.mem_cons_of_mem _ (ih (i0 + 1) _ t h1)

theorem coordsFibraTorre_keys (cfg : Cfg) (y x : Rat) (t : TorreRec) :
    (coordsFibraTorre cfg y x t).map Prod.fst = switchesEnTorre t := by
  unfold coordsFibraTorre
  rw [List.map_map]
  exact List.enumFrom_map_snd 0 _

theorem coordsSwitchTorre_keys (cfg : Cfg) (y x : Rat) (t : TorreRec) :
    (coordsSwitchTorre cfg y x t).map Prod.fst = switchesEnTorre t := by
  unfold coordsSwitchTorre
  rw [List.map_map]
  exact List.enumFrom_map_snd 0 _

theorem switchesEnTorre_nodup (t : TorreRec)
    (h : (t.switches.map Prod.fst).Nodup) : (switchesEnTorre t).Nodup := by
  unfold switchesEnTorre
  exact (sortLe_perm _ _).nodup_iff.mpr (h.filter _)

theorem lookupA_coordsFibraDe (cfg : Cfg) (alturas : List (Int × Rat))
    (lts : List TorreL) (hnd : (lts.map TorreL.id).Nodup)
    (t : TorreL) (ht : t ∈ lts) :
    lookupA (coordsFibraDe cfg alturas lts) t.id =
      some (coordsFibraTorre cfg ((lookupA alturas 0).getD cfg.Y_INICIAL)
        t.x t.datos) := by
  apply lookupA_eq_some_of_mem
  · show ((lts.map _).map Prod.fst).Nodup
    rw [List.map_map]
    exact hnd
  · exact List.mem_map.mpr ⟨t, ht, rfl⟩

theorem conectada_iff (cfg : Cfg) (alturas : List (Int × Rat))
    (lts : List TorreL) (hnd : (lts.map TorreL.id).Nodup)
    (t : TorreL) (ht : t ∈ lts) (r : String) :
    (lookupA ((lookupA (coordsFibraDe cfg alturas lts) t.id).getD []) r).isSome ↔
      r ∈ switchesEnTorre t.datos := by
  rw [lookupA_coordsFibraDe cfg alturas lts hnd t ht]
  rw [Option.getD_some, lookupA_isSome_iff, coordsFibraTorre_keys]

theorem count_filter_id (lts : List TorreL) (hnd : (lts.map TorreL.id).Nodup)
    (p : TorreL → Bool) (i : Nat) :
    ((lts.filter p).map TorreL.id).count i =
      if ∃ t ∈ lts, t.id = i ∧ p t = true then 1 else 0 := by
  induction lts with
  | nil => simp
  | cons a tl ih =>
      simp only [List.map_cons, List.nodup_cons] at hnd
      obtain ⟨ha, htl⟩ := hnd
      by_cases hp : p a
      · rw [List.filter_cons_of_pos hp]
        simp only [List.map_cons]
        by_cases hi : a.id = i
        · subst hi
          rw [List.count_cons_self]
          have h0 : ((tl.filter p).map TorreL.id).count a.id = 0 := by
            rw [List.count_eq_zero]
            intro hmem
            apply ha
            rcases List.mem_map.mp hmem with ⟨t, htf, hid⟩
            exact List.mem_map.mpr ⟨t, List.mem_of_mem_filter htf, hid⟩
          rw [h0, if_pos ⟨a, List.mem_cons_self _ _, rfl, hp⟩]
        · rw [List.count_cons_of_ne (fun hh => hi hh.symm), ih htl]
          have hiff : (∃ t ∈ tl, t.id = i ∧ p t = true) ↔
              (∃ t ∈ a :: tl, t.id = i ∧ p t = true) := by
            constructor
            · rintro ⟨t, htm, hrest⟩
              exact ⟨t, List.mem_cons_of_mem _ htm, hrest⟩
            · rintro ⟨t, htm, hid2, hp2⟩
              rcases List.mem_cons.mp htm with h1 | h1
              · subst h1; exact absurd hid2 hi
              · exact ⟨t, h1, hid2, hp2⟩
          rw [if_congr hiff rfl rfl]
      · rw [List.filter_cons_of_neg (by simpa using hp), ih htl]
        have hiff : (∃ t ∈ tl, t.id = i ∧ p t = true) ↔
            (∃ t ∈ a :: tl, t.id = i ∧ p t = true) := by
          constructor
          · rintro ⟨t, htm, hrest⟩
            exact ⟨t, List.mem_cons_of_mem _ htm, hrest⟩
          · rintro ⟨t, htm, hid2, hp2⟩
            rcases List.mem_cons.mp htm with h1 | h1
            · subst h1; exact absurd hp2 (by simpa using hp)
            · exact ⟨t, h1, hid2, hp2⟩
        rw [if_congr hiff rfl rfl]

theorem count_pair_map (x : String) (l : List Nat) (i : Nat) :
    ((l.map (fun j => (x, j))).count (x, i)) = l.count i := by
  induction l with
  | nil => rfl
  | cons j tl ih =>
      simp only [List.map_cons, List.count_cons, ih]
      by_cases h : i = j
      · subst h; simp
      · have h1 : (((x, j) : String × Nat) == (x, i)) = false := by
          apply beq_false_of_ne
          simp [Ne.symm h]
        have h2 : (j == i) = false := by
          apply beq_false_of_ne
          exact Ne.symm h
        rw [h1, h2]

theorem count_pairs_flatMap (roles : List (String × Pt))
    (hnd : (roles.map Prod.fst).Nodup) (F : String → List Nat)
    (r : String) (i : Nat) :
    ((roles.flatMap (fun p => (F p.1).map (fun j => (p.1, j)))).count (r, i)) =
      if r ∈ roles.map Prod.fst then (F r).count i else 0 := by
  induction roles with
  | nil => simp
  | cons a tl ih =>
      simp only [List.map_cons, List.nodup_cons] at hnd
      obtain ⟨ha, htl⟩ := hnd
      rw [List.flatMap_cons, List.count_append, ih htl]
      simp only [List.map_cons]
      by_cases hra : r = a.1
      · rw [hra]
        rw [if_neg ha, if_pos (List.mem_cons_self _ _)]
        have hcnt := count_pair_map a.1 (F a.1) i
        simpa using hcnt
      · have h0 : (((F a.1).map (fun j => (a.1, j))).count (r, i)) = 0 := by
          rw [List.count_eq_zero]
          intro hmem
          rcases List.mem_map.mp hmem with ⟨j, hj, hpair⟩
          exact hra (by simpa using congrArg Prod.fst hpair.symm)
        rw [h0]
        have hiff : r ∈ List.map Prod.fst tl ↔ r ∈ a.1 :: List.map Prod.fst tl := by
          constructor
          · exact fun h => List.mem_cons_of_mem _ h
          · intro h
            rcases List.mem_cons.mp h with h1 | h1
            · exact absurd h1 hra
            · exact h1
        rw [if_congr hiff rfl rfl]
        omega

theorem rolesMdf_keys_nodup (coordsF : List (Nat × List (String × Pt)))
    (h : ∀ l, lookupA coordsF 0 = some l → (l.map Prod.fst).Nodup) :
    ((rolesMdfOrdenados coordsF).map Prod.fst).Nodup := by
  unfold rolesMdfOrdenados
  refine (((sortLe_perm (fun a b => decide (a.2.2 ≤ b.2.2))
    ((lookupA coordsF 0).getD [])).map Prod.fst).nodup_iff).mpr ?_
  cases hl : lookupA coordsF 0 with
  | none => simp
  | some l => simpa using h l hl

theorem mem_rolesMdf_iff (coordsF : List (Nat × List (String × Pt))) (r : String) :
    r ∈ (rolesMdfOrdenados coordsF).map Prod.fst ↔
      r ∈ ((lookupA coordsF 0).getD []).map Prod.fst := by
  unfold rolesMdfOrdenados
  exact ((sortLe_perm _ _).map Prod.fst).mem_iff

/-- C5: in the emitted fiber backbone, for every switch role and every
tower id, there is exactly one drop segment for (role, tower) precisely
when the MDF tower (id 0) owns the role, the tower is not the MDF, and the
tower owns the role; a tower lacking the role receives no segment. -/
theorem backbone_exactamente_uno (cfg : Cfg) (rows : List Row)
    (r : String) (i : Nat) :
    (dropsFibra cfg (alturasNiveles cfg (torresList rows))
        (asignarTorres cfg (torresList rows))).count (r, i) =
      if (∃ t0 ∈ asignarTorres cfg (torresList rows),
            t0.id = 0 ∧ r ∈ switchesEnTorre t0.datos) ∧ i ≠ 0 ∧
         (∃ t ∈ asignarTorres cfg (torresList rows),
            t.id = i ∧ r ∈ switchesEnTorre t.datos) then 1 else 0 := by
  set ts := torresList rows with hts
  set lts := asignarTorres cfg ts with hlts
  set alturas := alturasNiveles cfg ts with halt
  set coordsF := coordsFibraDe cfg alturas lts with hcf
  have hndid : (lts.map TorreL.id).Nodup := asignarTorres_ids_nodup cfg ts
  have hsw : ∀ t ∈ lts, (t.datos.switches.map Prod.fst).Nodup := by
    intro t ht
    have h1 : t.datos ∈ ts := mem_asignarTorresAux_datos cfg 0 cfg.X_INICIAL ts t ht
    rcases List.mem_map.mp h1 with ⟨p, hp, hpd⟩
    rw [← hpd]
    exact (WFTorres_cargar rows).2 p hp
  have hroles : ((rolesMdfOrdenados coordsF).map Prod.fst).Nodup := by
    apply rolesMdf_keys_nodup
    intro l hl
    rcases mem_of_lookupA_eq_some hl with hmem
    rcases List.mem_map.mp hmem with ⟨t, htl, hpair⟩
    have h2 : l = coordsFibraTorre cfg ((lookupA alturas 0).getD cfg.Y_INICIAL)
        t.x t.datos := by
      have := congrArg Prod.snd hpair
      simpa using this.symm
    rw [h2, coordsFibraTorre_keys]
    exact switchesEnTorre_nodup t.datos (hsw t htl)
  unfold dropsFibra
  rw [← hcf]
  have hmapmap : ∀ p : String × Pt,
      (torresConectadas lts coordsF p.1).map (fun t => (p.1, t.id)) =
        ((torresConectadas lts coordsF p.1).map TorreL.id).map
          (fun j => (p.1, j)) := by
    intro p
    rw [List.map_map]
    rfl
  rw [List.flatMap_congr (fun p _ => hmapmap p)]
  rw [count_pairs_flatMap (rolesMdfOrdenados coordsF) hroles
    (fun s => (torresConectadas lts coordsF s).map TorreL.id) r i]
  unfold torresConectadas
  have hpred : ∀ t ∈ lts,
      ((t.id ≠ 0 &&
        (lookupA ((lookupA coordsF t.id).getD []) r).isSome) = true) ↔
        (t.id ≠ 0 ∧ r ∈ switchesEnTorre t.datos) := by
    intro t ht
    rw [Bool.and_eq_true]
    constructor
    · rintro ⟨h1, h2⟩
      exact ⟨by simpa using h1,
        (conectada_iff cfg alturas lts hndid t ht r).mp (by simpa using h2)⟩
    · rintro ⟨h1, h2⟩
      refine ⟨by simpa using h1, ?_⟩
      have := (conectada_iff cfg alturas lts hndid t ht r).mpr h2
      simpa using this
  rw [count_filter_id lts hndid _ i]
  by_cases hmdf : r ∈ (rolesMdfOrdenados coordsF).map Prod.fst
  · rw [if_pos hmdf]
    have hmdf2 : ∃ t0 ∈ lts, t0.id = 0 ∧ r ∈ switchesEnTorre t0.datos := by
      rw [mem_rolesMdf_iff] at hmdf
      cases hl : lookupA coordsF 0 with
      | none => rw [hl] at hmdf; simp at hmdf
      | some l =>
          rw [hl, Option.getD_some] at hmdf
          rcases List.mem_map.mp (mem_of_lookupA_eq_some hl) with ⟨t0, ht0, hpair⟩
          have hid0 : t0.id = 0 := congrArg Prod.fst hpair
          have hl2 : l = coordsFibraTorre cfg
              ((lookupA alturas 0).getD cfg.Y_INICIAL) t0.x t0.datos := by
            have := congrArg Prod.snd hpair
            simpa using this.symm
          refine ⟨t0, ht0, hid0, ?_⟩
          rw [hl2, coordsFibraTorre_keys] at hmdf
          exact hmdf
    have hiff2 : (∃ t ∈ lts, t.id = i ∧
        (t.id ≠ 0 &&
          (lookupA ((lookupA coordsF t.id).getD []) r).isSome) = true) ↔
        (i ≠ 0 ∧ ∃ t ∈ lts, t.id = i ∧ r ∈ switchesEnTorre t.datos) := by
      constructor
      · rintro ⟨t, htm, hid2, hb⟩
        rcases (hpred t htm).mp hb with ⟨hne, hr2⟩
        exact ⟨hid2 ▸ hne, t, htm, hid2, hr2⟩
      · rintro ⟨hne, t, htm, hid2, hr2⟩
        exact ⟨t, htm, hid2, (hpred t htm).mpr ⟨hid2.symm ▸ hne, hr2⟩⟩
    rw [if_congr hiff2 rfl rfl]
    have hfinal : (i ≠ 0 ∧ ∃ t ∈ lts, t.id = i ∧ r ∈ switchesEnTorre t.datos) ↔
        ((∃ t0 ∈ lts, t0.id = 0 ∧ r ∈ switchesEnTorre t0.datos) ∧ i ≠ 0 ∧
         (∃ t ∈ lts, t.id = i ∧ r ∈ switchesEnTorre t.datos)) :=
      ⟨fun h => ⟨hmdf2, h⟩, fun h => h.2⟩
    rw [if_congr hfinal rfl rfl]
  · rw [if_neg hmdf]
    have hno : ¬ ∃ t0 ∈ lts, t0.id = 0 ∧ r ∈ switchesEnTorre t0.datos := by
      rintro ⟨t0, ht0, hid0, hr0⟩
      apply hmdf
      rw [mem_rolesMdf_iff]
      have := lookupA_coordsFibraDe cfg alturas lts hndid t0 ht0
      rw [hid0] at this
      rw [this, Option.getD_some, coordsFibraTorre_keys]
      exact hr0
    rw [if_neg (fun hc => hno hc.1)]

/-- C9 witness: rows with original tower ids 5 and 2 merge in the order
[2, 5]; the layout gives them ids 0 and 1, keeps the records positionally,
and the MDF slot (id 0) holds original id 2, the smallest. -/
theorem ids_reasignados_posicionales_testigo :
    (TorreL.id ⟨0, 0, ⟨"B", [(1, [("torre_nombre", PyVal.vstr "B")])], []⟩⟩ = 0) ∧
    (((asignarTorres cfgVacia (torresList filasDosTorres))[0]?).map TorreL.datos =
      ((cargarDatosCsv filasDosTorres)[0]?).map Prod.snd) ∧
    ((2 : Int) ≤ 5) :=
  ⟨(ids_reasignados_posicionales cfgVacia filasDosTorres).1 0
     ⟨0, 0, ⟨"B", [(1, [("torre_nombre", PyVal.vstr "B")])], []⟩⟩ (by decide),
   (ids_reasignados_posicionales cfgVacia filasDosTorres).2.1 0,
   (ids_reasignados_posicionales cfgVacia filasDosTorres).2.2
     ⟨2, "B", [(1, [("torre_nombre", PyVal.vstr "B")])], []⟩
     ⟨5, "A", [(1, [("torre_nombre", PyVal.vstr "A")])], []⟩
     (by decide) (by decide)⟩

/-! ## Claim C6: trunk aggregate conservation -/

theorem cables_pasoDispositivo (cfg : Cfg) (swC : List (String × Pt))
    (xC y : Rat) (nd : Nivel) (acc : Rat × TrunkSt) (par : String × DispConf)
    (sw : String) :
    (lookupA ((pasoDispositivo cfg swC xC y nd acc par).2.cables) sw).getD 0 =
      (lookupA acc.2.cables sw).getD 0 + contribTroncal cfg swC sw nd par := by
  unfold contribTroncal
  simp only [pasoDispositivo]
  by_cases hc : 0 < getQty nd par.1
  · rw [if_pos hc]
    simp only
    cases hm : lookupA cfg.MAPEO_SWITCH par.1 with
    | none =>
        simp only
        rw [if_neg (fun hcond => by cases hcond.2.1)]
        omega
    | some sw2 =>
        simp only
        by_cases hok : sw2 ≠ "" ∧ (lookupA swC sw2).isSome
        · rw [if_pos hok]
          simp only
          by_cases hsw : sw2 = sw
          · subst hsw
            rw [lookupA_updA_self]
            rw [if_pos ⟨hc, rfl, hok.1, hok.2⟩]
            simp
          · rw [lookupA_updA_ne _ _ _ (fun hh => hsw hh.symm)]
            rw [if_neg (fun hcond => hsw (Option.some.inj hcond.2.1))]
            omega
        · rw [if_neg hok]
          simp only
          rw [if_neg (fun hcond => hok (by
            rw [Option.some.inj hcond.2.1]
            exact ⟨hcond.2.2.1, hcond.2.2.2⟩))]
          omega
  · rw [if_neg hc]
    simp only
    rw [if_neg (fun hcond => hc hcond.1)]
    omega

theorem cables_foldDisp (cfg : Cfg) (swC : List (String × Pt)) (xC y : Rat)
    (nd : Nivel) (l : List (String × DispConf)) :
    ∀ (acc : Rat × TrunkSt) (sw : String),
      (lookupA ((l.foldl (pasoDispositivo cfg swC xC y nd) acc).2.cables) sw).getD 0 =
        (lookupA acc.2.cables sw).getD 0 +
          (l.map (contribTroncal cfg swC sw nd)).sum := by
  induction l with
  | nil => intro acc sw; simp
  | cons d tl ih =>
      intro acc sw
      rw [List.foldl_cons, ih, cables_pasoDispositivo]
      simp only [List.map_cons, List.sum_cons]
      ring

theorem cables_pasoNivel (cfg : Cfg) (swC : List (String × Pt))
    (xBase xCanaleta : Rat) (alturas : List (Int × Rat))
    (st : TrunkSt) (par : Int × Nivel) (sw : String) :
    (lookupA ((pasoNivel cfg swC xBase xCanaleta alturas st par).cables) sw).getD 0 =
      (lookupA st.cables sw).getD 0 +
        (cfg.DISPOSITIVOS.map (contribTroncal cfg swC sw par.2)).sum := by
  unfold pasoNivel
  exact cables_foldDisp cfg swC xCanaleta _ par.2 cfg.DISPOSITIVOS (xBase + 50, st) sw

theorem cables_foldNivel (cfg : Cfg) (swC : List (String × Pt))
    (xBase xCanaleta : Rat) (alturas : List (Int × Rat))
    (l : List (Int × Nivel)) :
    ∀ (st : TrunkSt) (sw : String),
      (lookupA ((l.foldl (pasoNivel cfg swC xBase xCanaleta alturas) st).cables) sw).getD 0 =
        (lookupA st.cables sw).getD 0 +
          (l.map (fun nv =>
            (cfg.DISPOSITIVOS.map (contribTroncal cfg swC sw nv.2)).sum)).sum := by
  induction l with
  | nil => intro st sw; simp
  | cons nv tl ih =>
      intro st sw
      rw [List.foldl_cons, ih, cables_pasoNivel]
      simp only [List.map_cons, List.sum_cons]
      ring

theorem contribTroncal_eq_max (cfg : Cfg) (swC : List (String × Pt))
    (sw : String) (nd : Nivel) (d : String × DispConf)
    (hok : sw ≠ "" ∧ (lookupA swC sw).isSome) :
    contribTroncal cfg swC sw nd d =
      if lookupA cfg.MAPEO_SWITCH d.1 = some sw then max (getQty nd d.1) 0
      else 0 := by
  unfold contribTroncal
  by_cases hm : lookupA cfg.MAPEO_SWITCH d.1 = some sw
  · rw [if_pos hm]
    by_cases hc : 0 < getQty nd d.1
    · rw [if_pos ⟨hc, hm, hok.1, hok.2⟩]
      omega
    · rw [if_neg (fun hcond => hc hcond.1)]
      omega
  · rw [if_neg hm, if_neg (fun hcond => hm hcond.2.1)]

theorem contribTroncal_eq_zero (cfg : Cfg) (swC : List (String × Pt))
    (sw : String) (nd : Nivel) (d : String × DispConf)
    (hok : ¬ (sw ≠ "" ∧ (lookupA swC sw).isSome)) :
    contribTroncal cfg swC sw nd d = 0 := by
  unfold contribTroncal
  rw [if_neg (fun hcond => hok ⟨hcond.2.2.1, hcond.2.2.2⟩)]

/-- C6 amended: for every tower, the aggregate count carried by the
`NxCAT6A` trunk label of a switch role equals the sum, over all the
tower's levels and all catalog device types mapped to that role, of the
POSITIVE part of the merged quantity (a negative stored quantity is
excluded by the `cantidad > 0` guard); with no trunk the count is zero. -/
theorem conservacion_troncales (cfg : Cfg) (ySotano xBase xCanaleta : Rat)
    (alturas : List (Int × Rat)) (t : TorreRec) (sw : String) :
    (lookupA (trunkFold cfg (coordsSwitchTorre cfg ySotano xBase t)
        xBase xCanaleta alturas t).cables sw).getD 0 =
      if sw ≠ "" ∧ sw ∈ switchesEnTorre t then
        (t.niveles.map (fun nv =>
          (cfg.DISPOSITIVOS.map (fun d =>
            if lookupA cfg.MAPEO_SWITCH d.1 = some sw
            then max (getQty nv.2 d.1) 0 else 0)).sum)).sum
      else 0 := by
  unfold trunkFold
  rw [cables_foldNivel]
  have hbase : (lookupA (TrunkSt.cables ⟨[], [], []⟩) sw).getD 0 = 0 := rfl
  rw [hbase, zero_add]
  have hperm : ((nivelesDescendentes t).map (fun nv =>
      (cfg.DISPOSITIVOS.map
        (contribTroncal cfg (coordsSwitchTorre cfg ySotano xBase t) sw nv.2)).sum)).sum =
      (t.niveles.map (fun nv =>
        (cfg.DISPOSITIVOS.map
          (contribTroncal cfg (coordsSwitchTorre cfg ySotano xBase t) sw nv.2)).sum)).sum := by
    exact ((sortLe_perm _ t.niveles).map _).sum_eq
  rw [hperm]
  by_cases hok : sw ≠ "" ∧ (lookupA (coordsSwitchTorre cfg ySotano xBase t) sw).isSome
  · have hmem : sw ∈ switchesEnTorre t := by
      have := hok.2
      rw [lookupA_isSome_iff, coordsSwitchTorre_keys] at this
      exact this
    rw [if_pos ⟨hok.1, hmem⟩]
    congr 1
    apply List.map_congr_left
    intro nv _
    congr 1
    apply List.map_congr_left
    intro d _
    exact contribTroncal_eq_max cfg _ sw nv.2 d hok
  · have hnotmem : ¬ (sw ≠ "" ∧ sw ∈ switchesEnTorre t) := by
      intro hcond
      apply hok
      refine ⟨hcond.1, ?_⟩
      rw [lookupA_isSome_iff, coordsSwitchTorre_keys]
      exact hcond.2
    rw [if_neg hnotmem]
    have hz : ∀ nv ∈ t.niveles,
        (cfg.DISPOSITIVOS.map
          (contribTroncal cfg (coordsSwitchTorre cfg ySotano xBase t) sw nv.2)).sum = 0 := by
      intro nv _
      have : ∀ d ∈ cfg.DISPOSITIVOS,
          contribTroncal cfg (coordsSwitchTorre cfg ySotano xBase t) sw nv.2 d = 0 :=
        fun d _ => contribTroncal_eq_zero cfg _ sw nv.2 d hok
      rw [List.map_congr_left this]
      simp
    rw [List.map_congr_left hz]
    simp

/-- C6 counterexample: with quantities 3 and −5 both mapped to `SW-CORE`,
the trunk is drawn and labelled 3, but the plain sum of the mapped merged
quantities is −2, refuting the unqualified conservation claim. -/
theorem conservacion_troncales_contraejemplo :
    ((lookupA (trunkFold cfgDemo
        (coordsSwitchTorre cfgDemo 0 0 ((torresList filasC6).headD emptyTorre))
        0 0 (alturasNiveles cfgDemo (torresList filasC6))
        ((torresList filasC6).headD emptyTorre)).cables "SW-CORE").isSome) ∧
    ¬ ((lookupA (trunkFold cfgDemo
        (coordsSwitchTorre cfgDemo 0 0 ((torresList filasC6).headD emptyTorre))
        0 0 (alturasNiveles cfgDemo (torresList filasC6))
        ((torresList filasC6).headD emptyTorre)).cables "SW-CORE").getD 0 =
      (((torresList filasC6).headD emptyTorre).niveles.map (fun nv =>
        (cfgDemo.DISPOSITIVOS.map (fun d =>
          if lookupA cfgDemo.MAPEO_SWITCH d.1 = some "SW-CORE"
          then getQty nv.2 d.1 else 0)).sum)).sum) := by
  constructor
  · decide
  · decide

/-! ## Claim C8: BOM cable and fiber estimates -/

theorem sumVals_updA_add (d : List (String × Int)) (k : String) (c : Int) :
    ((updA d k 0 (fun q => q + c)).map Prod.snd).sum = (d.map Prod.snd).sum + c := by
  induction d with
  | nil => simp [updA]
  | cons p tl ih =>
      obtain ⟨k2, v⟩ := p
      by_cases hk : k2 = k
      · subst hk
        simp only [updA, eq_self_iff_true, if_true, List.map_cons, List.sum_cons]
        ring
      · simp only [updA, if_neg hk, List.map_cons, List.sum_cons, ih]
        ring

theorem bomTotales_foldDisp (nd : Nivel) (l : List (String × DispConf)) :
    ∀ acc : List (String × Int),
      ((l.foldl (fun acc3 d => updA acc3 d.1 0 (fun q => q + getQty nd d.1)) acc).map
        Prod.snd).sum =
        (acc.map Prod.snd).sum + (l.map (fun d => getQty nd d.1)).sum := by
  induction l with
  | nil => intro acc; simp
  | cons d tl ih =>
      intro acc
      rw [List.foldl_cons, ih, sumVals_updA_add]
      simp only [List.map_cons, List.sum_cons]
      ring

theorem bomTotales_foldNivel (cfg : Cfg) (l : List (Int × Nivel)) :
    ∀ acc : List (String × Int),
      ((l.foldl (fun acc2 nv =>
          cfg.DISPOSITIVOS.foldl
            (fun acc3 d => updA acc3 d.1 0 (fun q => q + getQty nv.2 d.1)) acc2)
        acc).map Prod.snd).sum =
        (acc.map Prod.snd).sum +
          (l.map (fun nv => (cfg.DISPOSITIVOS.map (fun d => getQty nv.2 d.1)).sum)).sum := by
  induction l with
  | nil => intro acc; simp
  | cons nv tl ih =>
      intro acc
      rw [List.foldl_cons, ih, bomTotales_foldDisp]
      simp only [List.map_cons, List.sum_cons]
      ring

theorem bomTotales_foldTorre (cfg : Cfg) (ts : List TorreRec) :
    ∀ acc : List (String × Int),
      ((ts.foldl (fun acc1 t =>
          t.niveles.foldl (fun acc2 nv =>
            cfg.DISPOSITIVOS.foldl
              (fun acc3 d => updA acc3 d.1 0 (fun q => q + getQty nv.2 d.1)) acc2) acc1)
        acc).map Prod.snd).sum =
        (acc.map Prod.snd).sum +
          (ts.map (fun t =>
            (t.niveles.map (fun nv =>
              (cfg.DISPOSITIVOS.map (fun d => getQty nv.2 d.1)).sum)).sum)).sum := by
  induction ts with
  | nil => intro acc; simp
  | cons t tl ih =>
      intro acc
      rw [List.foldl_cons, ih, bomTotales_foldNivel]
      simp only [List.map_cons, List.sum_cons]
      ring

theorem bomTotales_sum (cfg : Cfg) (ts : List TorreRec) :
    ((bomTotales cfg ts).map Prod.snd).sum =
      (ts.map (fun t =>
        (t.niveles.map (fun nv =>
          (cfg.DISPOSITIVOS.map (fun d => getQty nv.2 d.1)).sum)).sum)).sum := by
  unfold bomTotales
  rw [bomTotales_foldTorre]
  simp

/-- C8: the BOM's UTP cable estimate is the total merged device count
(summed over every tower, level and catalog device type) times the fixed
15 m per point, and the fiber estimate is (tower count − 1) times the
number of distinct configured switch roles times the fixed 50 m per link. -/
theorem estimaciones_bom (cfg : Cfg) (rows : List Row)
    (h : (cfg.SWITCH_CONFIG.map Prod.fst).Nodup) :
    totalCableUtp cfg (torresList rows) =
      ((torresList rows).map (fun t =>
        (t.niveles.map (fun nv =>
          (cfg.DISPOSITIVOS.map (fun d => getQty nv.2 d.1)).sum)).sum)).sum * 15 ∧
    totalFibra cfg (torresList rows) =
      (((torresList rows).length : Int) - 1) *
        ((cfg.SWITCH_CONFIG.map Prod.fst).dedup.length : Int) * 50 := by
  constructor
  · unfold totalCableUtp totalPuntosRed
    rw [bomTotales_sum]
  · unfold totalFibra
    rw [List.dedup_eq_self.mpr h, List.length_map]

/-- C8 witness: the estimate identities instantiated on the two-level
dataset and the one-role configuration. -/
theorem estimaciones_bom_testigo :
    (totalCableUtp cfgDemo (torresList filasC6) =
      ((torresList filasC6).map (fun t =>
        (t.niveles.map (fun nv =>
          (cfgDemo.DISPOSITIVOS.map (fun d => getQty nv.2 d.1)).sum)).sum)).sum * 15) ∧
    (totalFibra cfgDemo (torresList filasC6) =
      (((torresList filasC6).length : Int) - 1) *
        ((cfgDemo.SWITCH_CONFIG.map Prod.fst).dedup.length : Int) * 50) :=
  estimaciones_bom cfgDemo filasC6 (by decide)

/-! ## Claim C1: determinism and the BOM timestamp -/

/-- C1 amended: for a fixed row sequence and configuration, the coordinate
assignments and the drawing-operation sequence are identical across runs
(they do not depend on the clock), and the BOM text of two runs is
identical except for the `Fecha de Generación` piece (index 3), which
carries the run's timestamp verbatim. -/
theorem determinismo_pipeline (cfg : Cfg) (rows : List Row) (f1 f2 : String) :
    (ejecutarPipeline cfg rows f1).1 = (ejecutarPipeline cfg rows f2).1 ∧
    (ejecutarPipeline cfg rows f1).2.1 = (ejecutarPipeline cfg rows f2).2.1 ∧
    ((ejecutarPipeline cfg rows f1).2.2).eraseIdx 3 =
      ((ejecutarPipeline cfg rows f2).2.2).eraseIdx 3 ∧
    ((ejecutarPipeline cfg rows f1).2.2)[3]? =
      some ("Fecha de Generación: " ++ f1 ++ "\n\n") :=
  ⟨rfl, rfl, rfl, rfl⟩

/-- C1 counterexample: two runs of the pipeline on the same (empty) row
sequence and configuration but at different wall-clock times produce
different BOM bytes, refuting byte-identical output across independent
runs. -/
theorem determinismo_pipeline_contraejemplo :
    ejecutarPipeline cfgVacia [] "2024-01-01 00:00:00" ≠
      ejecutarPipeline cfgVacia [] "2024-01-02 00:00:00" := by
  intro h
  have h2 := congrArg (fun x => x.2.2[3]?) h
  simp only at h2
  exact absurd h2 (by decide)

/-! ## Claim C4: switch role requires a model value -/

/-- C4: on the spec's end-to-end scenario, the code records `SW-CORE`
with model `X1` for tower 0, but records NO switch at all for tower 1,
although tower 1's `switch_core` indicator is present with value `1`
(≠ the `'0'` sentinel): recording is additionally gated on a non-empty
`switch_core_modelo` value, contradicting the documented behavior. -/
theorem switch_sin_modelo_no_registrado :
    (lookupA (filasEscenario.getD 1 []) "switch_core" = some "1") ∧
    ((lookupA (cargarDatosCsv filasEscenario) 0).map TorreRec.switches =
      some [("SW-CORE", "X1")]) ∧
    ((lookupA (cargarDatosCsv filasEscenario) 1).map TorreRec.switches =
      some []) := by
  refine ⟨by decide, by decide, by decide⟩

end HarborBay
